import Mathlib

/-
Verification development for the GroBro Growatt protocol codec.

Shallow embedding of the binary protocol codec and register-decoding
engine:
  * src/grobro/model/growatt_registers.py  (register type system)
  * src/grobro/model/modbus_message.py     (Modbus message model)
  * src/grobro/grobro/client.py            (dispatch logic)

Conventions of the embedding:
  * Python `bytes` / `str` values are `List Nat` of code points (a
    well-formedness side condition `< 256` / `< 128` is stated where the
    source relies on it).
  * A Python function that can raise is modelled with `Option`: `none`
    is an uncaught exception at that level.  A function whose failure is
    caught and logged (returning Python `None`) is modelled as
    `Option (Option _)`: the outer layer is "raised", the inner layer is
    the `None` result.
  * The unbounded `while` loop of `GrowattModbusMessage.parse_grobro` is
    modelled with explicit fuel that is consumed once per iteration;
    exhausted fuel (`none` at the outer layer without the loop having
    exited) corresponds to an execution that has not terminated yet.
  * Python floats are modelled over `Rat`; the register catalogs only
    feed finite decimal constants to them and no claim below depends on
    binary floating-point artifacts.
-/

abbrev Bytes := List Nat

/-- Code points of a Lean string literal, used to write down concrete
Python strings such as device ids. -/
def strBytes (s : String) : Bytes := s.data.map Char.toNat

/-- Python `bytes.decode("ascii", errors="ignore")`: bytes `>= 128` are
dropped, the rest are kept as code points. -/
def asciiDecodeIgnore (l : Bytes) : Bytes := l.filter (fun b => b < 128)

/-- Python `str.strip("\x00")`: remove leading and trailing NUL code
points. -/
def stripNul (l : Bytes) : Bytes :=
  ((l.dropWhile (fun b => b = 0)).reverse.dropWhile (fun b => b = 0)).reverse

/-- The composite `buffer.decode("ascii", errors="ignore").strip("\x00")`
used throughout `modbus_message.py`. -/
def decodeAsciiStrip (l : Bytes) : Bytes := stripNul (asciiDecodeIgnore l)

/-- Python `str.encode("ascii")`: succeeds iff every code point is below
128, raising `UnicodeEncodeError` otherwise. -/
def encodeAscii (s : Bytes) : Option Bytes :=
  if s.all (fun c => c < 128) then some s else none

/-- Big-endian unsigned integer of a 1/2/4-byte span, as produced by
`struct.unpack` with `!B` / `!H` / `!I`. -/
def beVal (l : Bytes) : Nat := l.foldl (fun acc b => acc * 256 + b) 0

/-- Python `struct.pack(">H", x)` for `0 <= x <= 65535`. -/
def packU16 (x : Nat) : Bytes := [x / 256, x % 256]

/-- Python `struct.pack("B", x)`: a single byte; raises `struct.error` outside
`[0, 255]`. -/
def packB (x : Int) : Option Bytes :=
  if 0 ≤ x ∧ x ≤ 255 then some [x.toNat] else none

/-- Python `struct.pack(">30s", s)`: pad with NUL to 30 bytes, truncating longer
input. -/
def pack30s (l : Bytes) : Bytes := l.take 30 ++ List.replicate (30 - l.length) 0

/-- Python slice `l[i:j]` with full negative-index semantics. -/
def pySlice (l : Bytes) (i j : Int) : Bytes :=
  let n : Int := l.length
  let i' : Int := if i < 0 then max 0 (n + i) else min i n
  let j' : Int := if j < 0 then max 0 (n + j) else min j n
  (l.take j'.toNat).drop i'.toNat

/-- Python slice `l[a:b]` for the non-negative indices used by
`get_data`. -/
def sliceN (l : Bytes) (a b : Nat) : Bytes := (l.take b).drop a

/-- Python `bytes.ljust(w, b"\x00")`; a non-positive or smaller width
leaves the input unchanged. -/
def pyLjust (l : Bytes) (w : Int) : Bytes :=
  if (l.length : Int) < w then l ++ List.replicate (w - l.length).toNat 0 else l

/-- Python `s.startswith(p)`. -/
def pyStartswith (s p : String) : Bool := p.data.isPrefixOf s.data

/-- The byte test `32 <= b <= 126 or b == 0` of the parse loop, deciding
whether a block is re-read as a multiple-serial block. -/
def printableOrNul (b : Nat) : Bool :=
  (decide (32 ≤ b) && decide (b ≤ 126)) || decide (b = 0)

/- ----------------------------------------------------------------- -/
/- Register type system: src/grobro/model/growatt_registers.py        -/
/- ----------------------------------------------------------------- -/

inductive GrowattRegisterDataTypes
  | ENUM
  | STRING
  | FLOAT
  | INT
  | TIME_HHMM
deriving DecidableEq, Repr

inductive GrowattRegisterEnumTypes
  | INT_MAP
  | BITFIELD
deriving DecidableEq, Repr

structure GrowattRegisterFloatOptions where
  delta : Rat := 1
  multiplier : Rat := 1
deriving DecidableEq

/-- The field `values: dict[int, str]`, modelled as an association list looked up
by first match (Python dict keys are unique). -/
structure GrowattRegisterEnumOptions where
  enum_type : GrowattRegisterEnumTypes
  values : List (Nat × String)
deriving DecidableEq

structure GrowattRegisterDataType where
  data_type : GrowattRegisterDataTypes
  float_options : Option GrowattRegisterFloatOptions := none
  enum_options : Option GrowattRegisterEnumOptions := none
deriving DecidableEq

/-- A decoded register value: Python int, float or str as produced by
`GrowattRegisterDataType.parse`. -/
inductive GrowattValue
  | intV (n : Nat)
  | floatV (q : Rat)
  | strV (s : Bytes)
deriving DecidableEq

/-- Python `dict.get(k, None)` on an association list. -/
def dictGet (l : List (Nat × String)) (k : Nat) : Option String :=
  (l.find? (fun p => p.1 = k)).map (fun p => p.2)

/-- Python `round(value, 3)` over exact rationals. -/
def roundTo3 (q : Rat) : Rat := ((round (q * 1000) : Int) : Rat) / 1000

/-- Embeds `GrowattRegisterDataType.parse(data_raw)`.  The argument is
`Option Bytes` because the client passes the possibly-`None` result of
`get_data` straight in; `if not data_raw` treats `None` and `b""` alike.
The `unpack_type` dict lookup raises `KeyError` (outer `none`) for any
width other than 1, 2 or 4 before the data-type dispatch. -/
def GrowattRegisterDataType.parse (t : GrowattRegisterDataType)
    (data_raw : Option Bytes) : Option (Option GrowattValue) :=
  match data_raw with
  | none => some none
  | some l =>
    if l.length = 0 then some none
    else if l.length = 1 ∨ l.length = 2 ∨ l.length = 4 then
      match t.data_type with
      | .FLOAT =>
        match t.float_options with
        | none => none
        | some opts =>
          some (some (.floatV (roundTo3 ((beVal l : Rat) * opts.multiplier + opts.delta))))
      | .TIME_HHMM =>
        some (some (.intV ((beVal l / 256) * 100 + beVal l % 256)))
      | .INT => some (some (.intV (beVal l)))
      | .ENUM =>
        match t.enum_options with
        | none => none
        | some opts =>
          match opts.enum_type with
          | .BITFIELD => some none
          | .INT_MAP =>
            match dictGet opts.values (beVal l) with
            | none => some none
            | some s =>
              if s = "" then some none else some (some (.intV (beVal l)))
      | .STRING => some (some (.strV (decodeAsciiStrip l)))
    else none

structure GrowattRegisterPosition where
  register_no : Nat
  offset : Nat := 0
  size : Nat := 2
deriving DecidableEq, Repr

structure GrowattInputRegister where
  position : GrowattRegisterPosition
  data : GrowattRegisterDataType
deriving DecidableEq

/- ----------------------------------------------------------------- -/
/- Modbus message model: src/grobro/model/modbus_message.py           -/
/- ----------------------------------------------------------------- -/

/-- Embeds `class GrowattModbusFunction(int, Enum)`. -/
inductive GrowattModbusFunction
  | READ_HOLDING_REGISTER
  | READ_INPUT_REGISTER
  | READ_SINGLE_REGISTER
  | PRESET_SINGLE_REGISTER
  | PRESET_MULTIPLE_REGISTER
deriving DecidableEq, Repr

def GrowattModbusFunction.value : GrowattModbusFunction → Nat
  | .READ_HOLDING_REGISTER => 3
  | .READ_INPUT_REGISTER => 4
  | .READ_SINGLE_REGISTER => 5
  | .PRESET_SINGLE_REGISTER => 6
  | .PRESET_MULTIPLE_REGISTER => 16

/-- The membership test `function in [e.value for e in GrowattModbusFunction]`
together with the enum construction `GrowattModbusFunction(function)`. -/
def GrowattModbusFunction.ofValue (n : Nat) : Option GrowattModbusFunction :=
  if n = 3 then some .READ_HOLDING_REGISTER
  else if n = 4 then some .READ_INPUT_REGISTER
  else if n = 5 then some .READ_SINGLE_REGISTER
  else if n = 6 then some .PRESET_SINGLE_REGISTER
  else if n = 16 then some .PRESET_MULTIPLE_REGISTER
  else none

/-- Embeds `GrowattModbusBlock`; the `end` field is spelled `end_` because `end`
is reserved in Lean. -/
structure GrowattModbusBlock where
  start : Nat
  end_ : Nat
  values : Bytes
deriving DecidableEq, Repr

def GrowattModbusBlock.build_grobro (b : GrowattModbusBlock) : Option Bytes :=
  if b.start ≤ 65535 ∧ b.end_ ≤ 65535 then
    some (packU16 b.start ++ packU16 b.end_ ++ b.values)
  else none

/-- Embeds `GrowattModbusBlock.size`. -/
def GrowattModbusBlock.size (b : GrowattModbusBlock) : Int := 4 + b.values.length

/-- The argument tuple of Python `datetime(...)`; `ctorOk` states when the
constructor succeeds instead of raising `ValueError`. -/
structure PyDatetime where
  year : Nat
  month : Nat
  day : Nat
  hour : Nat
  minute : Nat
  second : Nat
  microsecond : Nat
deriving DecidableEq, Repr

def isLeapYear (y : Nat) : Bool := y % 4 = 0 && (y % 100 ≠ 0 || y % 400 = 0)

def daysInMonth (y m : Nat) : Nat :=
  if m = 2 then (if isLeapYear y then 29 else 28)
  else if m = 4 ∨ m = 6 ∨ m = 9 ∨ m = 11 then 30
  else 31

def PyDatetime.ctorOk (t : PyDatetime) : Bool :=
  1 ≤ t.year && t.year ≤ 9999 &&
  1 ≤ t.month && t.month ≤ 12 &&
  1 ≤ t.day && t.day ≤ daysInMonth t.year t.month &&
  t.hour ≤ 23 && t.minute ≤ 59 && t.second ≤ 59 && t.microsecond ≤ 999999

structure GrowattMetadata where
  device_sn : Bytes
  timestamp : Option PyDatetime
deriving DecidableEq, Repr

/-- Embeds `GrowattMetadata.parse_grobro`.  The two `struct.unpack` calls raise
(propagating to the caller, hence outer `none`) iff fewer than 37 bytes
are available; an out-of-range calendar tuple only nulls the timestamp. -/
def GrowattMetadata.parse_grobro (buffer : Bytes) : Option GrowattMetadata :=
  if 37 ≤ buffer.length then
    let device_serial := decodeAsciiStrip (pySlice buffer 0 30)
    let ts : PyDatetime :=
      ⟨buffer.getD 30 0 + 2000, buffer.getD 31 0, buffer.getD 32 0, buffer.getD 33 0,
       buffer.getD 34 0, buffer.getD 35 0, buffer.getD 36 0 * 1000⟩
    some ⟨device_serial, if ts.ctorOk then some ts else none⟩
  else none

/-- Embeds `GrowattMetadata.build_grobro`, `struct.pack(">30s7B", ...)`.  A `None`
timestamp raises `AttributeError`; each `B` field raises outside
`[0, 255]`.  `int(microsecond / 1000)` equals floor division on the
datetime range. -/
def GrowattMetadata.build_grobro (md : GrowattMetadata) : Option Bytes :=
  match md.timestamp with
  | none => none
  | some ts => do
    let sn ← encodeAscii md.device_sn
    let yb ← packB ((ts.year : Int) - 2000)
    let mob ← packB (ts.month : Int)
    let db ← packB (ts.day : Int)
    let hb ← packB (ts.hour : Int)
    let mib ← packB (ts.minute : Int)
    let sb ← packB (ts.second : Int)
    let msb ← packB ((ts.microsecond / 1000 : Nat) : Int)
    pure (pack30s sn ++ yb ++ mob ++ db ++ hb ++ mib ++ sb ++ msb)

structure GrowattModbusFunctionMultipleSerial where
  device_id : Bytes
  function : GrowattModbusFunction
  start : Nat
  end_ : Nat
  value : Bytes
deriving DecidableEq, Repr

/-- Embeds `GrowattModbusFunctionMultipleSerial.build_grobro`:
`value.encode("ascii").ljust((end - start + 1) * 2, b"\x00")` appended to
the packed register range. -/
def GrowattModbusFunctionMultipleSerial.build_grobro
    (s : GrowattModbusFunctionMultipleSerial) : Option Bytes := do
  let vb ← encodeAscii s.value
  if s.start ≤ 65535 ∧ s.end_ ≤ 65535 then
    pure (packU16 s.start ++ packU16 s.end_ ++
      pyLjust vb (((s.end_ : Int) - s.start + 1) * 2))
  else none

/-- Embeds `GrowattModbusFunctionMultipleSerial.size`; `Int` because Python
computes `(end - start + 1) * 2` on unbounded ints. -/
def GrowattModbusFunctionMultipleSerial.size
    (s : GrowattModbusFunctionMultipleSerial) : Int :=
  4 + ((s.end_ : Int) - s.start + 1) * 2

structure GrowattModbusMessage where
  unknown : Nat
  device_id : Bytes
  metadata : Option GrowattMetadata := none
  function : GrowattModbusFunction
  register_blocks : List GrowattModbusBlock := []
  multiple_serial_blocks : List GrowattModbusFunctionMultipleSerial := []
deriving DecidableEq, Repr

/-- The `msg_len` property: `32` (2-byte unknown + 30-byte device id)
plus the sizes of metadata and all blocks. -/
def GrowattModbusMessage.msg_len (m : GrowattModbusMessage) : Int :=
  32 + (match m.metadata with | some _ => (37 : Int) | none => 0)
    + (m.register_blocks.map GrowattModbusBlock.size).sum
    + (m.multiple_serial_blocks.map GrowattModbusFunctionMultipleSerial.size).sum

/-- Embeds `GrowattModbusMessage.get_data`: scan register blocks first, then
multiple-serial blocks, slicing out the addressed span; `some none` is
the Python `return None`, outer `none` an `encode("ascii")` failure. -/
def GrowattModbusMessage.get_data (m : GrowattModbusMessage)
    (pos : GrowattRegisterPosition) : Option (Option Bytes) :=
  match m.register_blocks.find?
      (fun b => decide (b.start ≤ pos.register_no) && decide (pos.register_no ≤ b.end_)) with
  | some b =>
    let block_pos := (pos.register_no - b.start) * 2 + pos.offset
    some (some (sliceN b.values block_pos (block_pos + pos.size)))
  | none =>
    match m.multiple_serial_blocks.find?
        (fun b => decide (b.start ≤ pos.register_no) && decide (pos.register_no ≤ b.end_)) with
    | some b =>
      (encodeAscii b.value).map (fun bb =>
        let block_pos := (pos.register_no - b.start) * 2 + pos.offset
        some (sliceN bb block_pos (block_pos + pos.size)))
    | none => some none

/-- Python `struct.unpack(">HH", l)`: raises unless the slice is exactly 4
bytes. -/
def unpackHH (l : Bytes) : Option (Nat × Nat) :=
  match l with
  | [a, b, c, d] => some (a * 256 + b, c * 256 + d)
  | _ => none

/-- Python `struct.unpack(HEADER_STRUCT, l)` with `HEADER_STRUCT = ">HHHBB30s"`:
unknown, constant 7, msg_len, constant 1, function byte, raw device id. -/
def unpackHeader (l : Bytes) : Option (Nat × Nat × Nat × Nat × Nat × Bytes) :=
  if l.length = 38 then
    some (l.getD 0 0 * 256 + l.getD 1 0, l.getD 2 0 * 256 + l.getD 3 0,
          l.getD 4 0 * 256 + l.getD 5 0, l.getD 6 0, l.getD 7 0, l.drop 8)
  else none

/-- The `while len(buffer) > offset + 4` block-consuming loop of
`GrowattModbusMessage.parse_grobro`.  Fuel is consumed once per
iteration; `none` means the given fuel was exhausted before the loop
exited (the Python loop can in fact run forever, see below), `some none`
means an exception was raised inside the loop (caught by the enclosing
`try`), and `some (some _)` is normal exit with the accumulated register
and multiple-serial blocks.  The offset is an `Int` because a block
header with `end < start` makes Python step the offset by a non-positive
amount. -/
def parseBlocksLoop (fuel : Nat) (buffer device_id : Bytes)
    (function : GrowattModbusFunction) (offset : Int)
    (regAcc : List GrowattModbusBlock)
    (serAcc : List GrowattModbusFunctionMultipleSerial) :
    Option (Option (List GrowattModbusBlock × List GrowattModbusFunctionMultipleSerial)) :=
  if (buffer.length : Int) > offset + 4 then
    match fuel with
    | 0 => none
    | fuel' + 1 =>
      match unpackHH (pySlice buffer offset (offset + 4)) with
      | none => some none
      | some (start, end_) =>
        let num_regs : Int := (end_ : Int) - start + 1
        let block_bytes := pySlice buffer (offset + 4) (offset + 4 + num_regs * 2)
        if block_bytes.all printableOrNul then
          parseBlocksLoop fuel' buffer device_id function (offset + 4 + num_regs * 2)
            regAcc
            (serAcc ++ [⟨device_id, function, start, end_, decodeAsciiStrip block_bytes⟩])
        else
          parseBlocksLoop fuel' buffer device_id function (offset + 4 + num_regs * 2)
            (regAcc ++ [⟨start, end_, block_bytes⟩]) serAcc
  else some (some (regAcc, serAcc))

/-- Embeds `GrowattModbusMessage.parse_grobro`, fuel-indexed.  Outer `none` is a
non-terminated loop; `some none` is the Python `None` result (unknown
function code, or any exception caught by the enclosing `try`);
`some (some m)` is a parsed message. -/
def GrowattModbusMessage.parse_grobroF (fuel : Nat) (buffer : Bytes) :
    Option (Option GrowattModbusMessage) :=
  match unpackHeader (pySlice buffer 0 38) with
  | none => some none
  | some (unknown, _constant_7, _msg_len, _constant_1, fval, device_id_raw) =>
    let device_id := decodeAsciiStrip device_id_raw
    match GrowattModbusFunction.ofValue fval with
    | none => some none
    | some function =>
      if function = .READ_INPUT_REGISTER then
        match GrowattMetadata.parse_grobro (pySlice buffer 38 (buffer.length : Int)) with
        | none => some none
        | some metadata =>
          (parseBlocksLoop fuel buffer device_id function 75 [] []).map
            (Option.map (fun p =>
              ⟨unknown, device_id, some metadata, function, p.1, p.2⟩))
      else
        (parseBlocksLoop fuel buffer device_id function 38 [] []).map
          (Option.map (fun p =>
            ⟨unknown, device_id, none, function, p.1, p.2⟩))

/-- Concatenation of a list of fallible byte strings, as used by
`build_grobro` when appending the per-block serializations. -/
def catOptionBytes : List (Option Bytes) → Option Bytes
  | [] => some []
  | o :: rest => do
    let b ← o
    let r ← catOptionBytes rest
    pure (b ++ r)

/-- Embeds `GrowattModbusMessage.build_grobro`: header via `HEADER_STRUCT` with
constants 7 and 1 and the recomputed `msg_len`, then metadata (when
present), register blocks and multiple-serial blocks. -/
def GrowattModbusMessage.build_grobro (m : GrowattModbusMessage) : Option Bytes := do
  let dev ← encodeAscii m.device_id
  if m.unknown ≤ 65535 ∧ 0 ≤ m.msg_len ∧ m.msg_len ≤ 65535 then
    let header := packU16 m.unknown ++ packU16 7 ++ packU16 m.msg_len.toNat ++
      [1, m.function.value] ++ pack30s dev
    let mdPart ← match m.metadata with
      | none => some ([] : Bytes)
      | some md => md.build_grobro
    let regPart ← catOptionBytes (m.register_blocks.map GrowattModbusBlock.build_grobro)
    let serPart ← catOptionBytes
      (m.multiple_serial_blocks.map GrowattModbusFunctionMultipleSerial.build_grobro)
    pure (header ++ mdPart ++ regPart ++ serPart)
  else none

/- ----------------------------------------------------------------- -/
/- Dispatch logic: src/grobro/grobro/client.py                        -/
/- ----------------------------------------------------------------- -/

/-- Catalog-side Home Assistant metadata of an input register
(`HomeassistantInputRegister`); presentation-only optional fields that
the embedded dispatch logic never reads are omitted. -/
structure HomeassistantInputRegister where
  name : String
  publish : Bool
deriving DecidableEq

/-- Catalog-side Home Assistant metadata of a holding register
(`HomeAssistantHoldingRegister`); only the fields read by the dispatch
logic are kept. -/
structure HomeAssistantHoldingRegister where
  name : String
  publish : Bool
  type : String
deriving DecidableEq

structure GroBroInputRegister where
  growatt : GrowattInputRegister
  homeassistant : HomeassistantInputRegister
deriving DecidableEq

structure GroBroHoldingRegister where
  growatt : Option GrowattInputRegister := none
  homeassistant : HomeAssistantHoldingRegister
deriving DecidableEq

/-- A per-family register catalog (`GroBroRegisters`); the Python dicts
are modelled as association lists in iteration order. -/
structure GroBroRegisters where
  input_registers : List (String × GroBroInputRegister)
  holding_registers : List (String × GroBroHoldingRegister)
deriving DecidableEq

/-- The telemetry state built on the `READ_INPUT_REGISTER` path
(`HomeAssistantInputRegister` in the source): `state.payload[name] = value`
assigns the parse result directly, so the values are optional. -/
structure HomeAssistantInputRegister where
  device_id : String
  payload : List (String × Option GrowattValue) := []
deriving DecidableEq

structure HomeAssistantHoldingRegisterValue where
  name : String
  value : GrowattValue
  register : HomeAssistantHoldingRegister
deriving DecidableEq

structure HomeAssistantHoldingRegisterInput where
  device_id : String
  payload : List HomeAssistantHoldingRegisterValue := []
deriving DecidableEq

/-- Outcome of one `Client.__on_message` dispatch of a parsed message:
which callback fired (if any), a `Ppv` data-quality drop, or an
exception caught by the handler's outer `try`. -/
inductive Outcome
  | ignored
  | publishedInput (state : HomeAssistantInputRegister)
  | publishedHolding (state : HomeAssistantHoldingRegisterInput)
  | droppedPpv
  | errored
deriving DecidableEq

/-- Embeds `modbus_message.get_data(...)` followed by
`register.growatt.data.parse(data_raw)` on the input-register path. -/
def clientInputDecode (m : GrowattModbusMessage) (reg : GrowattInputRegister) :
    Option (Option GrowattValue) :=
  (m.get_data reg.position).bind (fun data_raw => reg.data.parse data_raw)

/-- Python `value > 1000000`: defined for int and float, a `TypeError`
(hence `none`) for `None` and `str`. -/
def pyGtMillion : Option GrowattValue → Option Bool
  | none => none
  | some (.intV n) => some (decide (n > 1000000))
  | some (.floatV q) => some (decide (q > 1000000))
  | some (.strV _) => none

/-- The `READ_INPUT_REGISTER` loop of `Client.__on_message`: every
catalog input register is decoded and stored (absent values included);
a `Ppv` value over one million aborts the whole record. -/
def readInputLoop (m : GrowattModbusMessage) :
    List (String × GroBroInputRegister) → HomeAssistantInputRegister → Outcome
  | [], state => .publishedInput state
  | (name, register) :: rest, state =>
    match clientInputDecode m register.growatt with
    | none => .errored
    | some value =>
      if name = "Ppv" then
        match pyGtMillion value with
        | none => .errored
        | some true => .droppedPpv
        | some false =>
          readInputLoop m rest ⟨state.device_id, state.payload ++ [(name, value)]⟩
      else
        readInputLoop m rest ⟨state.device_id, state.payload ++ [(name, value)]⟩

/-- Decode of one holding register on the `READ_SINGLE_REGISTER` path:
`register.growatt.position` raises `AttributeError` when `growatt` is
`None`. -/
def clientHoldingDecode (m : GrowattModbusMessage) (reg : GroBroHoldingRegister) :
    Option (Option GrowattValue) :=
  match reg.growatt with
  | none => none
  | some g => (m.get_data g.position).bind (fun data_raw => g.data.parse data_raw)

/-- Python `value == 1` over the decoded value. -/
def valueEq1 : GrowattValue → Bool
  | .intV n => n = 1
  | .floatV q => q = 1
  | .strV _ => false

/-- The `READ_SINGLE_REGISTER` loop of `Client.__on_message`: absent
values are skipped (`if value is None: continue`), a "switch" register
is rendered as ON/OFF, everything else is appended verbatim. -/
def readHoldingLoop (m : GrowattModbusMessage) :
    List (String × GroBroHoldingRegister) → HomeAssistantHoldingRegisterInput → Outcome
  | [], state => .publishedHolding state
  | (name, register) :: rest, state =>
    match clientHoldingDecode m register with
    | none => .errored
    | some none => readHoldingLoop m rest state
    | some (some v) =>
      let v' := if register.homeassistant.type = "switch" then
          (if valueEq1 v then GrowattValue.strV (strBytes "ON")
           else GrowattValue.strV (strBytes "OFF"))
        else v
      readHoldingLoop m rest
        ⟨state.device_id, state.payload ++ [⟨name, v', register.homeassistant⟩]⟩

/-- The device-family ladder of `Client.__on_message`: serial-number
startswith checks selecting the Neo, Noah or Nexa catalog. -/
def resolveKnownRegisters (neo noah nexa : GroBroRegisters) (device_id : String) :
    Option GroBroRegisters :=
  if pyStartswith device_id "QMN" then some neo
  else if pyStartswith device_id "0PVP" then some noah
  else if pyStartswith device_id "0HVR" then some nexa
  else none

/-- Embeds `Client.__on_message` from `if modbus_message:` onward, for a parsed
message: resolve the family catalog, then run the function-code
branches. -/
def dispatchModbus (neo noah nexa : GroBroRegisters) (device_id : String)
    (m : GrowattModbusMessage) : Outcome :=
  match resolveKnownRegisters neo noah nexa device_id with
  | none => .ignored
  | some known_registers =>
    if m.function = .READ_SINGLE_REGISTER then
      readHoldingLoop m known_registers.holding_registers ⟨device_id, []⟩
    else if m.function = .READ_INPUT_REGISTER then
      readInputLoop m known_registers.input_registers ⟨device_id, []⟩
    else .ignored

/- ----------------------------------------------------------------- -/
/- Well-formedness predicates                                         -/
/- ----------------------------------------------------------------- -/

/-- Well-formedness of a register block in the sense of the data model:
a real `[start, end]` register span within `uint16` range whose value
bytes have exactly the self-described length `(end - start + 1) * 2`. -/
def GrowattModbusBlock.wfSpec (b : GrowattModbusBlock) : Bool :=
  decide (b.start ≤ b.end_) && decide (b.end_ ≤ 65535) &&
  decide (b.values.length = (b.end_ - b.start + 1) * 2) &&
  b.values.all (fun x => decide (x < 256))

/-- Well-formedness of a multiple-serial block: `uint16` register span,
printable-ASCII value that fits the span's byte width. -/
def GrowattModbusFunctionMultipleSerial.wfSpec
    (s : GrowattModbusFunctionMultipleSerial) : Bool :=
  decide (s.start ≤ s.end_) && decide (s.end_ ≤ 65535) &&
  decide (s.value.length ≤ (s.end_ - s.start + 1) * 2) &&
  s.value.all (fun c => decide (32 ≤ c) && decide (c ≤ 126))

/-- Well-formedness of metadata: serializable serial and a timestamp
that survives the byte-level round trip (year in `[2000, 2255]`,
microseconds a multiple of 1000 with a one-byte millisecond count). -/
def GrowattMetadata.wfSpec (md : GrowattMetadata) : Bool :=
  md.device_sn.all (fun c => decide (0 < c) && decide (c < 128)) &&
  decide (md.device_sn.length ≤ 30) &&
  (match md.timestamp with
   | none => false
   | some ts =>
     ts.ctorOk && decide (2000 ≤ ts.year) && decide (ts.year ≤ 2255) &&
     decide (ts.microsecond % 1000 = 0) && decide (ts.microsecond ≤ 255999))

/-- A valid `GrowattModbusMessage` in the sense of the data model
(serializable fields, metadata present exactly on `READ_INPUT_REGISTER`,
well-formed blocks whose stored provenance matches the message). -/
def GrowattModbusMessage.wellFormed (m : GrowattModbusMessage) : Bool :=
  decide (m.unknown ≤ 65535) &&
  m.device_id.all (fun c => decide (0 < c) && decide (c < 128)) &&
  decide (m.device_id.length ≤ 30) &&
  (match m.metadata with
   | some md => decide (m.function = .READ_INPUT_REGISTER) && md.wfSpec
   | none => decide (m.function ≠ .READ_INPUT_REGISTER)) &&
  m.register_blocks.all GrowattModbusBlock.wfSpec &&
  m.multiple_serial_blocks.all (fun s =>
    s.wfSpec && decide (s.device_id = m.device_id) && decide (s.function = m.function)) &&
  decide (m.msg_len ≤ 65535)

/-- A message whose serialization parses back to itself: well-formed,
and additionally no register block consists solely of printable/NUL
bytes (such a block would be re-read as a multiple-serial block). -/
def GrowattModbusMessage.buildParseSafe (m : GrowattModbusMessage) : Bool :=
  m.wellFormed &&
  m.register_blocks.all (fun b => !(b.values.all printableOrNul))

/-- Every 4-byte window of the buffer, read as a big-endian
`(start, end)` pair, steps the parse loop's offset forward
(`start <= end + 2`).  Adversarial buffers violating this can make the
Python loop run forever. -/
def goodBlockWindows (b : Bytes) : Bool :=
  (List.range b.length).all (fun i =>
    decide (b.length < i + 4) ||
    decide (b.getD i 0 * 256 + b.getD (i+1) 0 ≤ b.getD (i+2) 0 * 256 + b.getD (i+3) 0 + 2))

/- ----------------------------------------------------------------- -/
/- Serialization chunks (proof machinery for the round trip)          -/
/- ----------------------------------------------------------------- -/

/-- One block of a serialized message body, register or multiple-serial;
`build_grobro` emits all register blocks and then all serial blocks. -/
inductive Chunk
  | reg (b : GrowattModbusBlock)
  | ser (s : GrowattModbusFunctionMultipleSerial)
deriving DecidableEq

/-- The bytes `build_grobro` emits for one chunk (assuming its value is
ASCII-encodable, which `Chunk.wf` guarantees). -/
def Chunk.bytes : Chunk → Bytes
  | .reg b => packU16 b.start ++ packU16 b.end_ ++ b.values
  | .ser s => packU16 s.start ++ packU16 s.end_ ++
      pyLjust s.value (((s.end_ : Int) - s.start + 1) * 2)

/-- Well-formedness of a chunk relative to the message's device id and
function code, mirroring `buildParseSafe`. -/
def Chunk.wf (dev : Bytes) (fn : GrowattModbusFunction) : Chunk → Bool
  | .reg b => b.wfSpec && !(b.values.all printableOrNul)
  | .ser s => s.wfSpec && decide (s.device_id = dev) && decide (s.function = fn)

def chunksBytes (cs : List Chunk) : Bytes := (cs.map Chunk.bytes).flatten

def regsOf (cs : List Chunk) : List GrowattModbusBlock :=
  cs.filterMap (fun c => match c with | .reg b => some b | .ser _ => none)

def sersOf (cs : List Chunk) : List GrowattModbusFunctionMultipleSerial :=
  cs.filterMap (fun c => match c with | .ser s => some s | .reg _ => none)

/-- The chunk sequence of a message, in `build_grobro` emission order. -/
def GrowattModbusMessage.chunks (m : GrowattModbusMessage) : List Chunk :=
  m.register_blocks.map Chunk.reg ++ m.multiple_serial_blocks.map Chunk.ser

/-- The 38-byte header `build_grobro` packs, with the length field left
as a parameter (the parser reads it but never uses it). -/
def headerBytes (unknown L : Nat) (fn : GrowattModbusFunction) (dev : Bytes) : Bytes :=
  packU16 unknown ++ packU16 7 ++ packU16 L ++ [1, fn.value] ++ pack30s dev

/-- The 37 bytes `GrowattMetadata.build_grobro` emits for a well-formed
metadata value. -/
def GrowattMetadata.wireBytes (md : GrowattMetadata) : Bytes :=
  match md.timestamp with
  | none => []
  | some ts => pack30s md.device_sn ++
      [ts.year - 2000, ts.month, ts.day, ts.hour, ts.minute, ts.second,
       ts.microsecond / 1000]

/-- Everything `build_grobro` emits after the header: metadata bytes (if
any) followed by the chunk bytes. -/
def GrowattModbusMessage.bodyBytes (m : GrowattModbusMessage) : Bytes :=
  (match m.metadata with
   | none => []
   | some md => (md.build_grobro).getD []) ++ chunksBytes m.chunks

/- ----------------------------------------------------------------- -/
/- Concrete instances for counterexamples and witnesses               -/
/- ----------------------------------------------------------------- -/

/-- A well-formed message whose single register block consists only of
printable ASCII bytes; the parser re-reads it as a multiple-serial
block. -/
def exPrintableMsg : GrowattModbusMessage :=
  ⟨1, strBytes "X", none, .READ_HOLDING_REGISTER, [⟨0, 0, [65, 66]⟩], []⟩

/-- What `parse_grobro` actually returns for the serialization of
`exPrintableMsg`: the block comes back as a multiple-serial block. -/
def exPrintableParsed : GrowattModbusMessage :=
  ⟨1, strBytes "X", none, .READ_HOLDING_REGISTER, [],
   [⟨strBytes "X", .READ_HOLDING_REGISTER, 0, 0, strBytes "AB"⟩]⟩

/-- A message that survives the round trip: its register block contains
the non-printable byte 200. -/
def exSafeMsg : GrowattModbusMessage :=
  ⟨1, strBytes "QMN7", none, .READ_HOLDING_REGISTER, [⟨0, 0, [1, 200]⟩], []⟩

/-- A `READ_INPUT_REGISTER` message with metadata, a register block and a
multiple-serial block, used to exercise the round trip end to end. -/
def exInputMsg : GrowattModbusMessage :=
  ⟨2, strBytes "QMN42", some ⟨strBytes "SN1", some ⟨2024, 2, 29, 23, 59, 58, 120000⟩⟩,
   .READ_INPUT_REGISTER, [⟨3, 4, [0, 5, 7, 200]⟩],
   [⟨strBytes "QMN42", .READ_INPUT_REGISTER, 10, 11, strBytes "fw1"⟩]⟩

/-- A 38-byte buffer whose declared length field is 999 although only 30
bytes follow the first 8 header bytes. -/
def mismatchedLenBuffer : Bytes :=
  headerBytes 0 999 .READ_HOLDING_REGISTER (strBytes "X")

/-- The message `parse_grobro` returns for `mismatchedLenBuffer`. -/
def mismatchedLenParsed : GrowattModbusMessage :=
  ⟨0, strBytes "X", none, .READ_HOLDING_REGISTER, [], []⟩

/-- A header-only well-formed message, whose serialization shows the
length field is written as 32, not as the 30 bytes that follow the first
8 header bytes. -/
def exHeaderOnlyMsg : GrowattModbusMessage :=
  ⟨0, strBytes "X", none, .READ_HOLDING_REGISTER, [], []⟩

/-- A buffer with exactly 4 bytes after the 38-byte header: the loop
condition `len(buffer) > offset + 4` stops without consuming them. -/
def fourTrailingBuffer : Bytes :=
  headerBytes 0 36 .READ_HOLDING_REGISTER (strBytes "X") ++ [0, 0, 0, 0]

/-- The message `parse_grobro` returns for `fourTrailingBuffer`: no block
was consumed. -/
def fourTrailingParsed : GrowattModbusMessage :=
  ⟨0, strBytes "X", none, .READ_HOLDING_REGISTER, [], []⟩

/-- An adversarial buffer on which the parse loop never terminates: the
block header `(start, end) = (3, 0)` gives `num_regs = -2`, so the
offset advances by `4 + (-2) * 2 = 0` forever. -/
def divergingBuffer : Bytes :=
  headerBytes 0 36 .READ_HOLDING_REGISTER (strBytes "X") ++ [0, 3, 0, 0, 0]

/-- An input-register catalog entry named `Foo` (2-byte INT). -/
def regFoo : GroBroInputRegister :=
  ⟨⟨⟨0, 0, 2⟩, ⟨.INT, none, none⟩⟩, ⟨"Foo", true⟩⟩

/-- A Neo catalog with the single input register `Foo`. -/
def neoFooCatalog : GroBroRegisters := ⟨[("Foo", regFoo)], []⟩

/-- An input-register catalog entry named `Ppv` (4-byte INT). -/
def regPpv : GroBroInputRegister :=
  ⟨⟨⟨0, 0, 4⟩, ⟨.INT, none, none⟩⟩, ⟨"Ppv", true⟩⟩

/-- A Neo catalog with the single input register `Ppv`. -/
def neoPpvCatalog : GroBroRegisters := ⟨[("Ppv", regPpv)], []⟩

/-- A holding-register catalog entry named `Bar` (2-byte INT, switch). -/
def regBar : GroBroHoldingRegister :=
  ⟨some ⟨⟨0, 0, 2⟩, ⟨.INT, none, none⟩⟩, ⟨"Bar", true, "switch"⟩⟩

/-- A Neo catalog with the single holding register `Bar`. -/
def neoBarCatalog : GroBroRegisters := ⟨[], [("Bar", regBar)]⟩

/-- An empty register catalog. -/
def emptyCatalog : GroBroRegisters := ⟨[], []⟩

/-- A `READ_INPUT_REGISTER` message with no blocks at all: every
register decodes to absent. -/
def emptyInputMsg : GrowattModbusMessage :=
  ⟨0, [], none, .READ_INPUT_REGISTER, [], []⟩

/-- A `READ_SINGLE_REGISTER` message with no blocks at all. -/
def emptySingleMsg : GrowattModbusMessage :=
  ⟨0, [], none, .READ_SINGLE_REGISTER, [], []⟩

/-- A `READ_INPUT_REGISTER` message whose single block makes `Ppv`
decode to 1200000. -/
def ppvTripMsg : GrowattModbusMessage :=
  ⟨0, [], none, .READ_INPUT_REGISTER, [⟨0, 1, [0, 18, 79, 128]⟩], []⟩

/- ----------------------------------------------------------------- -/
/- Supporting lemmas                                                  -/
/- ----------------------------------------------------------------- -/

theorem pySlice_nonneg (l : Bytes) (a b : Nat) :
    pySlice l (a : Int) (b : Int) = sliceN l a b := by
  unfold pySlice sliceN
  have ha : ¬((a : Int) < 0) := by omega
  have hb : ¬((b : Int) < 0) := by omega
  simp only [ha, hb, if_false]
  have h1 : (min (a : Int) (l.length : Int)).toNat = min a l.length := by
    rcases le_total a l.length with h | h
    · simp [min_eq_left h, min_eq_left (by exact_mod_cast h : (a : Int) ≤ l.length)]
    · simp [min_eq_right h, min_eq_right (by exact_mod_cast h : (l.length : Int) ≤ a)]
  have h2 : (min (b : Int) (l.length : Int)).toNat = min b l.length := by
    rcases le_total b l.length with h | h
    · simp [min_eq_left h, min_eq_left (by exact_mod_cast h : (b : Int) ≤ l.length)]
    · simp [min_eq_right h, min_eq_right (by exact_mod_cast h : (l.length : Int) ≤ b)]
  rw [h1, h2]
  have h3 : l.take (min b l.length) = l.take b := by
    rcases le_total b l.length with h | h
    · rw [min_eq_left h]
    · rw [min_eq_right h, List.take_length, List.take_of_length_le h]
  rw [h3]
  rcases le_total a l.length with h | h
  · rw [min_eq_left h]
  · rw [min_eq_right h]
    have hlen : (l.take b).length ≤ l.length := by
      simp [List.length_take]
    rw [List.drop_eq_nil_of_le hlen, List.drop_eq_nil_of_le (le_trans hlen h)]

theorem sliceN_append (pre xs : Bytes) (a b : Nat) :
    sliceN (pre ++ xs) (pre.length + a) (pre.length + b) = sliceN xs a b := by
  unfold sliceN
  rw [List.take_append_eq_append_take, List.take_of_length_le (by omega),
    Nat.add_sub_cancel_left, List.drop_append_eq_append_drop,
    List.drop_eq_nil_of_le (by simp [List.length_take])]
  simp [List.length_take]

theorem sliceN_zero (l : Bytes) (b : Nat) : sliceN l 0 b = l.take b := by
  simp [sliceN]

theorem u16_round (x : Nat) : x / 256 * 256 + x % 256 = x := by omega

theorem dropWhile_zero_replicate_append (k : Nat) (w : Bytes) :
    (List.replicate k 0 ++ w).dropWhile (fun b => decide (b = 0)) =
      w.dropWhile (fun b => decide (b = 0)) := by
  induction k with
  | zero => simp
  | succ n ih =>
    simp only [List.replicate_succ, List.cons_append, List.dropWhile_cons,
      decide_eq_true_eq]
    simp only [if_pos trivial, ih]

theorem dropWhile_zero_replicate (k : Nat) :
    (List.replicate k (0 : Nat)).dropWhile (fun b => decide (b = 0)) = [] := by
  have := dropWhile_zero_replicate_append k []
  simp only [List.append_nil, List.dropWhile_nil] at this
  exact this

theorem stripNul_pad (v : Bytes) (k : Nat) (h : ∀ c ∈ v, c ≠ 0) :
    stripNul (v ++ List.replicate k 0) = v := by
  unfold stripNul
  rcases v with _ | ⟨a, as⟩
  · simp [dropWhile_zero_replicate]
  · have ha : a ≠ 0 := h a (by simp)
    rw [List.cons_append, List.dropWhile_cons_of_neg (by simpa using ha)]
    rw [← List.cons_append, List.reverse_append, List.reverse_replicate,
      dropWhile_zero_replicate_append]
    have : ((a :: as).reverse).dropWhile (fun b => decide (b = 0)) = (a :: as).reverse := by
      rcases hrev : (a :: as).reverse with _ | ⟨b, bs⟩
      · simp at hrev
      · have hb : b ∈ (a :: as) := by
          rw [← List.mem_reverse, hrev]; simp
        rw [List.dropWhile_cons_of_neg (by simpa using h b hb)]
    rw [this, List.reverse_reverse]

theorem decodeAsciiStrip_pad (v : Bytes) (k : Nat) (h : ∀ c ∈ v, 0 < c ∧ c < 128) :
    decodeAsciiStrip (v ++ List.replicate k 0) = v := by
  unfold decodeAsciiStrip asciiDecodeIgnore
  rw [List.filter_append]
  have h1 : v.filter (fun b => decide (b < 128)) = v :=
    List.filter_eq_self.mpr (fun a ha => by simpa using (h a ha).2)
  have h2 : (List.replicate k (0 : Nat)).filter (fun b => decide (b < 128)) =
      List.replicate k 0 := List.filter_eq_self.mpr (fun a ha => by
    have : a = 0 := List.eq_of_mem_replicate ha
    simp [this])
  rw [h1, h2, stripNul_pad v k (fun c hc => Nat.pos_iff_ne_zero.mp (h c hc).1)]

theorem decodeAsciiStrip_exact (v : Bytes) (h : ∀ c ∈ v, 0 < c ∧ c < 128) :
    decodeAsciiStrip v = v := by
  simpa using decodeAsciiStrip_pad v 0 h

theorem pack30s_eq (l : Bytes) (h : l.length ≤ 30) :
    pack30s l = l ++ List.replicate (30 - l.length) 0 := by
  unfold pack30s
  rw [List.take_of_length_le h]

theorem pack30s_length (l : Bytes) (h : l.length ≤ 30) :
    (pack30s l).length = 30 := by
  rw [pack30s_eq l h]; simp; omega

theorem pyLjust_nat (v : Bytes) (w : Nat) (h : v.length ≤ w) :
    pyLjust v (w : Int) = v ++ List.replicate (w - v.length) 0 := by
  unfold pyLjust
  rcases Nat.lt_or_ge v.length w with hlt | hge
  · rw [if_pos (by exact_mod_cast hlt)]
    congr 1
    congr 1
    omega
  · have : v.length = w := le_antisymm h hge
    rw [if_neg (by omega), this, Nat.sub_self]
    simp

theorem pyLjust_nat_length (v : Bytes) (w : Nat) (h : v.length ≤ w) :
    (pyLjust v (w : Int)).length = w := by
  rw [pyLjust_nat v w h]; simp; omega

theorem ofValue_value (fn : GrowattModbusFunction) :
    GrowattModbusFunction.ofValue fn.value = some fn := by
  cases fn <;> rfl

theorem catOptionBytes_all_some (f : Bytes → Bytes) :
    ∀ (l : List Bytes), catOptionBytes (l.map (fun x => some (f x))) =
      some ((l.map f).flatten) := by
  intro l
  induction l with
  | nil => rfl
  | cons a as ih => simp [catOptionBytes, ih]

/- ----------------------------------------------------------------- -/
/- Claims about the register type system                              -/
/- ----------------------------------------------------------------- -/

/-- C6: the claim says an ENUM register of BITFIELD kind decodes a
non-empty raw span to a mapping from each named bit position to its
boolean state.  The code instead returns `None` unconditionally (the
branch is a `TODO: implement` stub): for every BITFIELD enum and every
supported raw width the decode is absent. -/
theorem C6_bitfield_stub (vals : List (Nat × String))
    (fo : Option GrowattRegisterFloatOptions) (l : Bytes)
    (hlen : l.length = 1 ∨ l.length = 2 ∨ l.length = 4) :
    GrowattRegisterDataType.parse ⟨.ENUM, fo, some ⟨.BITFIELD, vals⟩⟩ (some l) =
      some none := by
  have hne : ¬(l.length = 0) := by rcases hlen with h | h | h <;> omega
  simp [GrowattRegisterDataType.parse, hne, hlen]

/-- Witness for C6: a bitfield with named bit 0 and the raw value 1
(bit 0 set) still decodes to absent. -/
theorem C6_bitfield_stub_witness :
    (([0, 1] : Bytes).length = 1 ∨ ([0, 1] : Bytes).length = 2 ∨
      ([0, 1] : Bytes).length = 4) ∧
    GrowattRegisterDataType.parse ⟨.ENUM, none, some ⟨.BITFIELD, [(0, "night")]⟩⟩
      (some [0, 1]) = some none :=
  ⟨by decide, C6_bitfield_stub [(0, "night")] none [0, 1] (by decide)⟩

/-- C8: an ENUM register of INT_MAP kind with a 1/2/4-byte raw value
whose integer is not a key of the map decodes to absent without raising
(the result is `some none`: no exception, no value). -/
theorem C8_intmap_unmapped (vals : List (Nat × String))
    (fo : Option GrowattRegisterFloatOptions) (l : Bytes)
    (hlen : l.length = 1 ∨ l.length = 2 ∨ l.length = 4)
    (hkey : dictGet vals (beVal l) = none) :
    GrowattRegisterDataType.parse ⟨.ENUM, fo, some ⟨.INT_MAP, vals⟩⟩ (some l) =
      some none := by
  have hne : ¬(l.length = 0) := by rcases hlen with h | h | h <;> omega
  simp [GrowattRegisterDataType.parse, hne, hlen, hkey]

/-- Witness for C8: raw value 7 is not a key of the map `{5: "on"}`. -/
theorem C8_intmap_unmapped_witness :
    dictGet [(5, "on")] (beVal [0, 7]) = none ∧
    GrowattRegisterDataType.parse ⟨.ENUM, none, some ⟨.INT_MAP, [(5, "on")]⟩⟩
      (some [0, 7]) = some none :=
  ⟨by decide, C8_intmap_unmapped [(5, "on")] none [0, 7] (by decide) (by decide)⟩

/-- C9: an ENUM register of INT_MAP kind with a mapped raw value returns
the raw integer itself (not the mapped name), except that a falsy mapped
name (the empty string) makes the value absent as if unmapped. -/
theorem C9_intmap_mapped (vals : List (Nat × String))
    (fo : Option GrowattRegisterFloatOptions) (l : Bytes) (s : String)
    (hlen : l.length = 1 ∨ l.length = 2 ∨ l.length = 4)
    (hkey : dictGet vals (beVal l) = some s) :
    GrowattRegisterDataType.parse ⟨.ENUM, fo, some ⟨.INT_MAP, vals⟩⟩ (some l) =
      some (if s = "" then none else some (GrowattValue.intV (beVal l))) := by
  have hne : ¬(l.length = 0) := by rcases hlen with h | h | h <;> omega
  simp only [GrowattRegisterDataType.parse, hne, hlen, hkey, if_false,
    if_true, eq_self_iff_true, or_true, true_or]
  split <;> simp

/-- Witness for C9: raw value 7 maps to `"mode-a"` and decodes to the
integer 7; raw value 9 maps to the empty string and decodes to absent. -/
theorem C9_intmap_mapped_witness :
    dictGet [(7, "mode-a"), (9, "")] (beVal [0, 7]) = some "mode-a" ∧
    GrowattRegisterDataType.parse
      ⟨.ENUM, none, some ⟨.INT_MAP, [(7, "mode-a"), (9, "")]⟩⟩ (some [0, 7]) =
      some (some (GrowattValue.intV 7)) ∧
    dictGet [(7, "mode-a"), (9, "")] (beVal [0, 9]) = some "" ∧
    GrowattRegisterDataType.parse
      ⟨.ENUM, none, some ⟨.INT_MAP, [(7, "mode-a"), (9, "")]⟩⟩ (some [0, 9]) =
      some none :=
  ⟨by decide,
   C9_intmap_mapped [(7, "mode-a"), (9, "")] none [0, 7] "mode-a" (by decide) (by decide),
   by decide,
   C9_intmap_mapped [(7, "mode-a"), (9, "")] none [0, 9] "" (by decide) (by decide)⟩

/- ----------------------------------------------------------------- -/
/- Dispatch lemmas and claims C4 / C7                                 -/
/- ----------------------------------------------------------------- -/

theorem readInputLoop_drops (m : GrowattModbusMessage) :
    ∀ (l : List (String × GroBroInputRegister)) (st : HomeAssistantInputRegister),
      (∀ e ∈ l, clientInputDecode m e.2.growatt ≠ none) →
      (∃ e ∈ l, e.1 = "Ppv") →
      (∀ e ∈ l, e.1 = "Ppv" →
        pyGtMillion ((clientInputDecode m e.2.growatt).getD none) = some true) →
      readInputLoop m l st = Outcome.droppedPpv := by
  intro l
  induction l with
  | nil =>
    intro st _ hex _
    rcases hex with ⟨e, he, _⟩
    simp at he
  | cons hd tl ih =>
    intro st hdec hex htrip
    obtain ⟨name, register⟩ := hd
    rcases hv : clientInputDecode m register.growatt with _ | v
    · exact absurd hv (hdec (name, register) (by simp))
    · by_cases hname : name = "Ppv"
      · have hgt := htrip (name, register) (by simp) hname
        rw [hv] at hgt
        simp only [Option.getD_some] at hgt
        subst hname
        simp [readInputLoop, hv, hgt]
      · have hstep : readInputLoop m ((name, register) :: tl) st =
            readInputLoop m tl ⟨st.device_id, st.payload ++ [(name, v)]⟩ := by
          simp [readInputLoop, hv, hname]
        rw [hstep]
        apply ih
        · intro e he
          exact hdec e (by simp [he])
        · rcases hex with ⟨e, he, hp⟩
          rcases List.mem_cons.mp he with rfl | he'
          · exact absurd hp hname
          · exact ⟨e, he', hp⟩
        · intro e he hp
          exact htrip e (by simp [he]) hp

theorem readInputLoop_ne_holding (m : GrowattModbusMessage) :
    ∀ (l : List (String × GroBroInputRegister)) (st : HomeAssistantInputRegister)
      (s : HomeAssistantHoldingRegisterInput),
      readInputLoop m l st ≠ Outcome.publishedHolding s := by
  intro l
  induction l with
  | nil => intro st s h; simp [readInputLoop] at h
  | cons hd tl ih =>
    intro st s h
    obtain ⟨name, register⟩ := hd
    rcases hv : clientInputDecode m register.growatt with _ | v
    · simp [readInputLoop, hv] at h
    · by_cases hname : name = "Ppv"
      · subst hname
        rcases hgt : pyGtMillion v with _ | b
        · simp [readInputLoop, hv, hgt] at h
        · rcases b with _ | _
          · rw [readInputLoop] at h
            simp only [hv, hgt, if_pos rfl] at h
            exact ih _ s h
          · simp [readInputLoop, hv, hgt] at h
      · rw [readInputLoop] at h
        simp only [hv, if_neg hname] at h
        exact ih _ s h

theorem readHoldingLoop_omits (m : GrowattModbusMessage) (name : String) :
    ∀ (l : List (String × GroBroHoldingRegister)) (st : HomeAssistantHoldingRegisterInput),
      (∀ e ∈ l, e.1 = name → (clientHoldingDecode m e.2).getD none = none) →
      name ∉ st.payload.map HomeAssistantHoldingRegisterValue.name →
      ∀ st', readHoldingLoop m l st = Outcome.publishedHolding st' →
        name ∉ st'.payload.map HomeAssistantHoldingRegisterValue.name := by
  intro l
  induction l with
  | nil =>
    intro st _ hst st' hrun
    simp only [readHoldingLoop, Outcome.publishedHolding.injEq] at hrun
    rw [← hrun]
    exact hst
  | cons hd tl ih =>
    intro st habs hst st' hrun
    obtain ⟨n, register⟩ := hd
    rcases hv : clientHoldingDecode m register with _ | ov
    · simp [readHoldingLoop, hv] at hrun
    · rcases ov with _ | v
      · rw [readHoldingLoop] at hrun
        simp only [hv] at hrun
        exact ih st (fun e he hp => habs e (by simp [he]) hp) hst st' hrun
      · by_cases hn : n = name
        · have := habs (n, register) (by simp) hn
          rw [hv] at this
          simp at this
        · rw [readHoldingLoop] at hrun
          simp only [hv] at hrun
          refine ih _ (fun e he hp => habs e (by simp [he]) hp) ?_ st' hrun
          simp only [List.map_append, List.map_cons, List.map_nil, List.mem_append,
            List.mem_singleton]
          rintro (hmem | heq)
          · exact hst hmem
          · exact hn heq.symm

/-- C7: a `READ_INPUT_REGISTER` message from device `"QMN123456"`
(resolved to the Neo catalog by prefix) in which every catalog entry
decodes without raising and every entry named `Ppv` decodes to a value
over one million makes the dispatcher discard the whole telemetry
record: the outcome is the data-quality drop, `on_input_register` is
never called and nothing is published. -/
theorem C7_ppv_reject (neo noah nexa : GroBroRegisters) (m : GrowattModbusMessage)
    (hfn : m.function = .READ_INPUT_REGISTER)
    (hdec : ∀ e ∈ neo.input_registers, clientInputDecode m e.2.growatt ≠ none)
    (hppv : ∃ e ∈ neo.input_registers, e.1 = "Ppv")
    (htrip : ∀ e ∈ neo.input_registers, e.1 = "Ppv" →
        pyGtMillion ((clientInputDecode m e.2.growatt).getD none) = some true) :
    dispatchModbus neo noah nexa "QMN123456" m = Outcome.droppedPpv := by
  have hstart : pyStartswith "QMN123456" "QMN" = true := by decide
  have hres : resolveKnownRegisters neo noah nexa "QMN123456" = some neo := by
    simp [resolveKnownRegisters, hstart]
  unfold dispatchModbus
  rw [hres, hfn]
  simp only [reduceCtorEq, if_false, if_pos rfl]
  exact readInputLoop_drops m neo.input_registers ⟨"QMN123456", []⟩ hdec hppv htrip

/-- Witness for C7: the concrete Neo catalog with a 4-byte `Ppv`
register and a message whose block decodes it to 1200000 yield the
data-quality drop. -/
theorem C7_ppv_reject_witness :
    ppvTripMsg.function = GrowattModbusFunction.READ_INPUT_REGISTER ∧
    (∃ e ∈ neoPpvCatalog.input_registers, e.1 = "Ppv") ∧
    clientInputDecode ppvTripMsg regPpv.growatt =
      some (some (GrowattValue.intV 1200000)) ∧
    dispatchModbus neoPpvCatalog emptyCatalog emptyCatalog "QMN123456" ppvTripMsg =
      Outcome.droppedPpv :=
  ⟨by decide, by decide, by decide,
   C7_ppv_reject neoPpvCatalog emptyCatalog emptyCatalog ppvTripMsg
     (by decide) (by decide) (by decide) (by decide)⟩

/-- C4 counterexample: the claim says an absent register value is
omitted from the telemetry record on the ReadInput path as well.  In
the code the ReadInput loop stores the decode result unconditionally:
for a Neo device and a catalog with input register `Foo`, a message with
no blocks publishes a record containing the entry `("Foo", None)`. -/
theorem C4_input_null_cex :
    clientInputDecode emptyInputMsg regFoo.growatt = some none ∧
    dispatchModbus neoFooCatalog emptyCatalog emptyCatalog "QMN1" emptyInputMsg =
      Outcome.publishedInput ⟨"QMN1", [("Foo", none)]⟩ := by
  exact ⟨by decide, by decide⟩

/-- C4 (amended): absent values are omitted only on the ReadSingle
(holding-register) path: if every holding register named `name` in the
resolved catalogs decodes to absent (or errors), then a published
holding record contains no entry of that name. -/
theorem C4_readsingle_omits_absent (neo noah nexa : GroBroRegisters) (dev : String)
    (m : GrowattModbusMessage) (name : String) (st : HomeAssistantHoldingRegisterInput)
    (habs : ∀ e ∈ neo.holding_registers ++ noah.holding_registers ++
        nexa.holding_registers,
      e.1 = name → (clientHoldingDecode m e.2).getD none = none)
    (hrun : dispatchModbus neo noah nexa dev m = Outcome.publishedHolding st) :
    name ∉ st.payload.map HomeAssistantHoldingRegisterValue.name := by
  unfold dispatchModbus at hrun
  rcases hres : resolveKnownRegisters neo noah nexa dev with _ | kr
  · rw [hres] at hrun
    simp at hrun
  · rw [hres] at hrun
    have hkr : kr = neo ∨ kr = noah ∨ kr = nexa := by
      unfold resolveKnownRegisters at hres
      by_cases h1 : pyStartswith dev "QMN" = true
      · rw [if_pos h1] at hres
        exact Or.inl (Option.some.inj hres).symm
      · rw [if_neg h1] at hres
        by_cases h2 : pyStartswith dev "0PVP" = true
        · rw [if_pos h2] at hres
          exact Or.inr (Or.inl (Option.some.inj hres).symm)
        · rw [if_neg h2] at hres
          by_cases h3 : pyStartswith dev "0HVR" = true
          · rw [if_pos h3] at hres
            exact Or.inr (Or.inr (Option.some.inj hres).symm)
          · rw [if_neg h3] at hres
            exact absurd hres (by simp)
    replace hrun : (if m.function = GrowattModbusFunction.READ_SINGLE_REGISTER then
        readHoldingLoop m kr.holding_registers ⟨dev, []⟩
      else if m.function = GrowattModbusFunction.READ_INPUT_REGISTER then
        readInputLoop m kr.input_registers ⟨dev, []⟩
      else Outcome.ignored) = Outcome.publishedHolding st := hrun
    by_cases hfn : m.function = .READ_SINGLE_REGISTER
    · rw [if_pos hfn] at hrun
      refine readHoldingLoop_omits m name kr.holding_registers ⟨dev, []⟩ ?_ (by simp)
        st hrun
      intro e he hp
      refine habs e ?_ hp
      rcases hkr with rfl | rfl | rfl <;> simp [he]
    · rw [if_neg hfn] at hrun
      by_cases hfn2 : m.function = .READ_INPUT_REGISTER
      · rw [if_pos hfn2] at hrun
        exact absurd hrun (readInputLoop_ne_holding m kr.input_registers ⟨dev, []⟩ st)
      · rw [if_neg hfn2] at hrun
        simp at hrun

/-- Witness for C4 (amended): the holding register `Bar` decodes to
absent for a blockless message, and the published holding record indeed
contains no `Bar` entry. -/
theorem C4_readsingle_omits_absent_witness :
    (∀ e ∈ neoBarCatalog.holding_registers ++ emptyCatalog.holding_registers ++
        emptyCatalog.holding_registers,
      e.1 = "Bar" → (clientHoldingDecode emptySingleMsg e.2).getD none = none) ∧
    dispatchModbus neoBarCatalog emptyCatalog emptyCatalog "QMN9" emptySingleMsg =
      Outcome.publishedHolding ⟨"QMN9", []⟩ ∧
    "Bar" ∉ (HomeAssistantHoldingRegisterInput.payload ⟨"QMN9", []⟩).map
      HomeAssistantHoldingRegisterValue.name :=
  ⟨by decide, by decide,
   C4_readsingle_omits_absent neoBarCatalog emptyCatalog emptyCatalog "QMN9"
     emptySingleMsg "Bar" ⟨"QMN9", []⟩ (by decide) (by decide)⟩

/- ----------------------------------------------------------------- -/
/- Modbus serialization lemmas                                        -/
/- ----------------------------------------------------------------- -/

theorem unpackHH_pack (s e : Nat) :
    unpackHH (packU16 s ++ packU16 e) = some (s, e) := by
  simp only [packU16, List.cons_append, List.nil_append, unpackHH,
    Option.some.injEq, Prod.mk.injEq]
  constructor <;> omega

theorem take4_chunk (s e : Nat) (rest : Bytes) :
    (packU16 s ++ packU16 e ++ rest).take 4 = packU16 s ++ packU16 e := by
  simp [packU16]

theorem drop4_chunk (s e : Nat) (rest : Bytes) :
    (packU16 s ++ packU16 e ++ rest).drop 4 = rest := by
  simp [packU16]

theorem chunk_bytes_length_reg (b : GrowattModbusBlock) :
    (Chunk.reg b).bytes.length = 4 + b.values.length := by
  simp [Chunk.bytes, packU16]
  omega

theorem chunk_bytes_length_ser (s : GrowattModbusFunctionMultipleSerial)
    (hse : s.start ≤ s.end_) (hv : s.value.length ≤ (s.end_ - s.start + 1) * 2) :
    (Chunk.ser s).bytes.length = 4 + (s.end_ - s.start + 1) * 2 := by
  have hw : (((s.end_ : Int) - s.start + 1) * 2) = (((s.end_ - s.start + 1) * 2 : Nat) : Int) := by
    push_cast
    omega
  simp only [Chunk.bytes, hw]
  rw [List.length_append, List.length_append, pyLjust_nat_length _ _ hv]
  simp [packU16]

theorem printable_pad (v : Bytes) (k : Nat) (h : ∀ c ∈ v, 32 ≤ c ∧ c ≤ 126) :
    (v ++ List.replicate k 0).all printableOrNul = true := by
  rw [List.all_append, Bool.and_eq_true]
  constructor
  · rw [List.all_eq_true]
    intro c hc
    simp only [printableOrNul, Bool.or_eq_true, Bool.and_eq_true, decide_eq_true_eq]
    exact Or.inl (h c hc)
  · rw [List.all_eq_true]
    intro c hc
    have : c = 0 := List.eq_of_mem_replicate hc
    simp [printableOrNul, this]

theorem sliceN_append_zero (pre xs : Bytes) (b : Nat) :
    sliceN (pre ++ xs) pre.length (pre.length + b) = xs.take b := by
  have h := sliceN_append pre xs 0 b
  rw [Nat.add_zero] at h
  rw [h, sliceN_zero]

theorem getD_append_offset (l₁ l₂ : Bytes) (i : Nat) :
    (l₁ ++ l₂).getD (l₁.length + i) 0 = l₂.getD i 0 := by
  rw [List.getD_append_right _ _ _ _ (by omega)]
  congr 1
  omega

theorem daysInMonth_le (y m : Nat) : daysInMonth y m ≤ 31 := by
  unfold daysInMonth
  split
  · split <;> omega
  · split <;> omega

theorem catOptionBytes_congr {α : Type} (f : α → Option Bytes) (g : α → Bytes)
    (l : List α) (h : ∀ x ∈ l, f x = some (g x)) :
    catOptionBytes (l.map f) = some ((l.map g).flatten) := by
  induction l with
  | nil => rfl
  | cons a as ih =>
    simp only [List.map_cons, catOptionBytes, h a (by simp), Option.bind_eq_bind,
      Option.some_bind, List.flatten_cons]
    rw [ih (fun x hx => h x (by simp [hx]))]
    rfl

theorem chunksBytes_cons (c : Chunk) (cs : List Chunk) :
    chunksBytes (c :: cs) = c.bytes ++ chunksBytes cs := by
  simp [chunksBytes]

theorem chunksBytes_append (l₁ l₂ : List Chunk) :
    chunksBytes (l₁ ++ l₂) = chunksBytes l₁ ++ chunksBytes l₂ := by
  simp [chunksBytes]

theorem metadata_build_wire (md : GrowattMetadata) (h : md.wfSpec = true) :
    md.build_grobro = some md.wireBytes := by
  rcases md with ⟨sn, _ | ts⟩
  · simp [GrowattMetadata.wfSpec] at h
  · simp only [GrowattMetadata.wfSpec, Bool.and_eq_true, List.all_eq_true,
      decide_eq_true_eq] at h
    obtain ⟨⟨hsn, hsnlen⟩, ⟨⟨⟨⟨hctor, hy1⟩, hy2⟩, hmod⟩, hms⟩⟩ := h
    have hbounds : 1 ≤ ts.month ∧ ts.month ≤ 12 ∧ 1 ≤ ts.day ∧ ts.day ≤ 31 ∧
        ts.hour ≤ 23 ∧ ts.minute ≤ 59 ∧ ts.second ≤ 59 := by
      simp only [PyDatetime.ctorOk, Bool.and_eq_true, decide_eq_true_eq] at hctor
      obtain ⟨⟨⟨⟨⟨⟨⟨⟨⟨_, _⟩, hm1⟩, hm2⟩, hd1⟩, hd2⟩, hh⟩, hmi⟩, hs⟩, _⟩ := hctor
      have := daysInMonth_le ts.year ts.month
      omega
    obtain ⟨hm1, hm2, hd1, hd2, hh, hmi, hs2⟩ := hbounds
    have he : encodeAscii sn = some sn := by
      unfold encodeAscii
      rw [if_pos]
      rw [List.all_eq_true]
      intro c hc
      simpa using (hsn c hc).2
    have hyb : packB ((ts.year : Int) - 2000) = some [ts.year - 2000] := by
      unfold packB
      rw [if_pos (by omega)]
      simp only [Option.some.injEq, List.cons.injEq, and_true]
      omega
    have hmob : packB (ts.month : Int) = some [ts.month] := by
      unfold packB
      rw [if_pos (by omega)]
      simp
    have hdb : packB (ts.day : Int) = some [ts.day] := by
      unfold packB
      rw [if_pos (by omega)]
      simp
    have hhb : packB (ts.hour : Int) = some [ts.hour] := by
      unfold packB
      rw [if_pos (by omega)]
      simp
    have hmib : packB (ts.minute : Int) = some [ts.minute] := by
      unfold packB
      rw [if_pos (by omega)]
      simp
    have hsb : packB (ts.second : Int) = some [ts.second] := by
      unfold packB
      rw [if_pos (by omega)]
      simp
    have hmsb : packB ((ts.microsecond / 1000 : Nat) : Int) =
        some [ts.microsecond / 1000] := by
      unfold packB
      rw [if_pos (by omega)]
      simp only [Option.some.injEq, List.cons.injEq, and_true]
      omega
    simp only [GrowattMetadata.build_grobro, GrowattMetadata.wireBytes,
      Option.bind_eq_bind, he, Option.some_bind, hyb, hmob, hdb, hhb, hmib, hsb, hmsb]
    simp

theorem metadata_parse_wire (md : GrowattMetadata) (h : md.wfSpec = true)
    (rest : Bytes) :
    GrowattMetadata.parse_grobro (md.wireBytes ++ rest) = some md := by
  rcases md with ⟨sn, _ | ts⟩
  · simp [GrowattMetadata.wfSpec] at h
  · simp only [GrowattMetadata.wfSpec, Bool.and_eq_true, List.all_eq_true,
      decide_eq_true_eq] at h
    obtain ⟨⟨hsn, hsnlen⟩, ⟨⟨⟨⟨hctor, hy1⟩, hy2⟩, hmod⟩, hms⟩⟩ := h
    have h30 : (pack30s sn).length = 30 := pack30s_length sn hsnlen
    have hwb : GrowattMetadata.wireBytes ⟨sn, some ts⟩ = pack30s sn ++
        [ts.year - 2000, ts.month, ts.day, ts.hour, ts.minute, ts.second,
         ts.microsecond / 1000] := rfl
    have hwlen : (GrowattMetadata.wireBytes ⟨sn, some ts⟩).length = 37 := by
      rw [hwb, List.length_append, h30]
      rfl
    unfold GrowattMetadata.parse_grobro
    rw [if_pos (by rw [List.length_append, hwlen]; omega)]
    have hdev : pySlice (GrowattMetadata.wireBytes ⟨sn, some ts⟩ ++ rest)
        ((0 : Nat) : Int) ((30 : Nat) : Int) = pack30s sn := by
      rw [pySlice_nonneg, sliceN_zero, hwb, List.append_assoc, ← h30,
        List.take_left]
    have hg : ∀ i : Nat, (GrowattMetadata.wireBytes ⟨sn, some ts⟩ ++ rest).getD
        (30 + i) 0 = ([ts.year - 2000, ts.month, ts.day, ts.hour, ts.minute,
          ts.second, ts.microsecond / 1000] ++ rest).getD i 0 := by
      intro i
      rw [hwb, List.append_assoc, ← h30, getD_append_offset]
    have e30 := hg 0
    have e31 := hg 1
    have e32 := hg 2
    have e33 := hg 3
    have e34 := hg 4
    have e35 := hg 5
    have e36 := hg 6
    norm_num at e30 e31 e32 e33 e34 e35 e36
    simp only [Nat.cast_zero, Nat.cast_ofNat] at hdev
    simp only [List.getD_eq_getElem?_getD, hdev, e30, e31, e32, e33, e34, e35, e36]
    have hts : (⟨ts.year - 2000 + 2000, ts.month, ts.day, ts.hour, ts.minute,
        ts.second, ts.microsecond / 1000 * 1000⟩ : PyDatetime) = ts := by
      have hy : ts.year - 2000 + 2000 = ts.year := by omega
      have hmu : ts.microsecond / 1000 * 1000 = ts.microsecond := by omega
      rw [hy, hmu]
    rw [hts, if_pos hctor]
    rw [pack30s_eq sn hsnlen, decodeAsciiStrip_pad sn _ hsn]

theorem block_build_wire (b : GrowattModbusBlock) (h : b.wfSpec = true) :
    b.build_grobro = some ((Chunk.reg b).bytes) := by
  simp only [GrowattModbusBlock.wfSpec, Bool.and_eq_true, decide_eq_true_eq] at h
  obtain ⟨⟨⟨hse, h65⟩, _⟩, _⟩ := h
  unfold GrowattModbusBlock.build_grobro
  rw [if_pos ⟨by omega, h65⟩]
  rfl

theorem serial_build_wire (s : GrowattModbusFunctionMultipleSerial)
    (h : s.wfSpec = true) :
    s.build_grobro = some ((Chunk.ser s).bytes) := by
  simp only [GrowattModbusFunctionMultipleSerial.wfSpec, Bool.and_eq_true,
    List.all_eq_true, decide_eq_true_eq] at h
  obtain ⟨⟨⟨hse, h65⟩, _⟩, hchars⟩ := h
  have he : encodeAscii s.value = some s.value := by
    unfold encodeAscii
    rw [if_pos]
    rw [List.all_eq_true]
    intro c hc
    have := hchars c hc
    simp only [decide_eq_true_eq]
    omega
  unfold GrowattModbusFunctionMultipleSerial.build_grobro
  rw [he]
  simp only [Option.bind_eq_bind, Option.some_bind]
  rw [if_pos ⟨by omega, h65⟩]
  rfl

theorem msg_len_nonneg (m : GrowattModbusMessage) (h : m.wellFormed = true) :
    0 ≤ m.msg_len := by
  simp only [GrowattModbusMessage.wellFormed, Bool.and_eq_true,
    List.all_eq_true] at h
  obtain ⟨⟨⟨⟨⟨⟨_, _⟩, _⟩, _⟩, hblocks⟩, hserials⟩, _⟩ := h
  unfold GrowattModbusMessage.msg_len
  have h1 : 0 ≤ (m.register_blocks.map GrowattModbusBlock.size).sum := by
    apply List.sum_nonneg
    intro x hx
    rcases List.mem_map.mp hx with ⟨b, _, rfl⟩
    unfold GrowattModbusBlock.size
    positivity
  have h2 : 0 ≤ (m.multiple_serial_blocks.map
      GrowattModbusFunctionMultipleSerial.size).sum := by
    apply List.sum_nonneg
    intro x hx
    rcases List.mem_map.mp hx with ⟨s, hs, rfl⟩
    have := hserials s hs
    simp only [GrowattModbusFunctionMultipleSerial.wfSpec, Bool.and_eq_true,
      decide_eq_true_eq] at this
    obtain ⟨⟨hwfs, _⟩, _⟩ := this
    obtain ⟨⟨⟨hse, _⟩, _⟩, _⟩ := hwfs
    unfold GrowattModbusFunctionMultipleSerial.size
    have : (s.start : Int) ≤ (s.end_ : Int) := by exact_mod_cast hse
    nlinarith
  rcases hmd : m.metadata with _ | md <;> simp only [hmd] <;> omega

theorem build_grobro_eq (m : GrowattModbusMessage) (h : m.wellFormed = true) :
    m.build_grobro = some (headerBytes m.unknown m.msg_len.toNat m.function
      m.device_id ++ m.bodyBytes) := by
  have hnn := msg_len_nonneg m h
  simp only [GrowattModbusMessage.wellFormed, Bool.and_eq_true, List.all_eq_true,
    decide_eq_true_eq] at h
  obtain ⟨⟨⟨⟨⟨⟨hunk, hdev⟩, hdevlen⟩, hmd⟩, hblocks⟩, hserials⟩, hmax⟩ := h
  have he : encodeAscii m.device_id = some m.device_id := by
    unfold encodeAscii
    rw [if_pos]
    rw [List.all_eq_true]
    intro c hc
    simpa using (hdev c hc).2
  have hreg : catOptionBytes (m.register_blocks.map GrowattModbusBlock.build_grobro) =
      some ((m.register_blocks.map (fun b => (Chunk.reg b).bytes)).flatten) :=
    catOptionBytes_congr _ _ _ (fun b hb => block_build_wire b (hblocks b hb))
  have hser : catOptionBytes (m.multiple_serial_blocks.map
      GrowattModbusFunctionMultipleSerial.build_grobro) =
      some ((m.multiple_serial_blocks.map (fun s => (Chunk.ser s).bytes)).flatten) :=
    catOptionBytes_congr _ _ _ (fun s hs => serial_build_wire s ((hserials s hs).1.1))
  unfold GrowattModbusMessage.build_grobro
  rw [he]
  simp only [Option.bind_eq_bind, Option.some_bind]
  rw [if_pos ⟨hunk, hnn, hmax⟩]
  rcases hmdm : m.metadata with _ | md
  · simp only [Option.some_bind, hreg, hser]
    simp only [GrowattModbusMessage.bodyBytes, GrowattModbusMessage.chunks, hmdm,
      chunksBytes_append, chunksBytes, List.map_map, Function.comp_def, headerBytes]
    simp only [Option.pure_def, Option.some.injEq, List.map_append,
      List.flatten_append, List.map_map, List.append_assoc, List.nil_append]
    rfl
  · rw [hmdm] at hmd
    simp only [decide_eq_true_eq, Bool.and_eq_true] at hmd
    simp only [metadata_build_wire md hmd.2, Option.some_bind, hreg, hser]
    simp only [GrowattModbusMessage.bodyBytes, GrowattModbusMessage.chunks, hmdm,
      chunksBytes_append, chunksBytes, List.map_map, Function.comp_def, headerBytes,
      metadata_build_wire md hmd.2, Option.getD_some]
    simp only [Option.pure_def, Option.some.injEq, List.map_append,
      List.flatten_append, List.map_map, List.append_assoc, List.nil_append]
    rfl

theorem parseBlocksLoop_run (dev : Bytes) (fn : GrowattModbusFunction) :
    ∀ (cs : List Chunk) (fuel : Nat) (pre t : Bytes)
      (racc : List GrowattModbusBlock)
      (sacc : List GrowattModbusFunctionMultipleSerial),
      (∀ c ∈ cs, Chunk.wf dev fn c = true) → t.length ≤ 4 → cs.length ≤ fuel →
      parseBlocksLoop fuel (pre ++ (chunksBytes cs ++ t)) dev fn
          (pre.length : Int) racc sacc =
        some (some (racc ++ regsOf cs, sacc ++ sersOf cs)) := by
  intro cs
  induction cs with
  | nil =>
    intro fuel pre t racc sacc _ ht _
    rw [parseBlocksLoop.eq_def]
    rw [if_neg]
    · simp [regsOf, sersOf]
    · simp only [chunksBytes, List.map_nil, List.flatten_nil, List.nil_append,
        List.length_append]
      push_cast
      omega
  | cons c cs ih =>
    intro fuel pre t racc sacc hwf ht hfuel
    rcases c with b | s
    · -- register-block chunk
      have hcw := hwf (Chunk.reg b) (by simp)
      simp only [Chunk.wf, Bool.and_eq_true, Bool.not_eq_true'] at hcw
      obtain ⟨hwfb, hprint⟩ := hcw
      simp only [GrowattModbusBlock.wfSpec, Bool.and_eq_true, decide_eq_true_eq,
        List.all_eq_true] at hwfb
      obtain ⟨⟨⟨hse, h65⟩, hvlen⟩, _⟩ := hwfb
      have hbuf : pre ++ (chunksBytes (Chunk.reg b :: cs) ++ t) =
          pre ++ ((Chunk.reg b).bytes ++ (chunksBytes cs ++ t)) := by
        rw [chunksBytes_cons, List.append_assoc]
      rw [hbuf]
      have hcb : (Chunk.reg b).bytes = packU16 b.start ++ packU16 b.end_ ++ b.values := rfl
      have hcblen : (Chunk.reg b).bytes.length = 4 + 2 * (b.end_ - b.start + 1) := by
        rw [chunk_bytes_length_reg, hvlen]
        omega
      rw [parseBlocksLoop.eq_def]
      rw [if_pos (by
        simp only [List.length_append, hcblen]
        push_cast
        omega)]
      rcases fuel with _ | fuel'
      · exact absurd hfuel (by simp)
      have hsl1 : pySlice (pre ++ ((Chunk.reg b).bytes ++ (chunksBytes cs ++ t)))
          (pre.length : Int) ((pre.length : Int) + 4) =
          packU16 b.start ++ packU16 b.end_ := by
        rw [show ((pre.length : Int) + 4) = ((pre.length + 4 : Nat) : Int) by
          push_cast; ring]
        rw [pySlice_nonneg, sliceN_append_zero, hcb, List.append_assoc,
          take4_chunk]
      have hsl2 : pySlice (pre ++ ((Chunk.reg b).bytes ++ (chunksBytes cs ++ t)))
          ((pre.length : Int) + 4)
          ((pre.length : Int) + 4 + ((b.end_ : Int) - (b.start : Int) + 1) * 2) =
          b.values := by
        rw [show ((pre.length : Int) + 4) = ((pre.length + 4 : Nat) : Int) by
          push_cast; ring]
        rw [show (((pre.length + 4 : Nat) : Int) +
            ((b.end_ : Int) - (b.start : Int) + 1) * 2) =
            ((pre.length + (4 + 2 * (b.end_ - b.start + 1)) : Nat) : Int) by
          push_cast; omega]
        rw [show ((pre.length + 4 : Nat) : Int) =
            ((pre.length + 4 : Nat) : Int) from rfl]
        rw [show (pre.length + 4 : Nat) = pre.length + 4 from rfl]
        rw [pySlice_nonneg]
        rw [sliceN_append pre _ 4 (4 + 2 * (b.end_ - b.start + 1))]
        unfold sliceN
        rw [← hcblen, List.take_append_of_le_length (le_refl _), List.take_length,
          hcb, drop4_chunk]
      simp only [hsl1, unpackHH_pack, hsl2, hprint, Bool.false_eq_true, if_false]
      have hoff : (pre.length : Int) + 4 +
          ((b.end_ : Int) - (b.start : Int) + 1) * 2 =
          (((pre ++ (Chunk.reg b).bytes).length : Nat) : Int) := by
        simp only [List.length_append, hcblen]
        push_cast
        omega
      rw [hoff]
      rw [show pre ++ ((Chunk.reg b).bytes ++ (chunksBytes cs ++ t)) =
          (pre ++ (Chunk.reg b).bytes) ++ (chunksBytes cs ++ t) by
        rw [List.append_assoc]]
      rw [show (⟨b.start, b.end_, b.values⟩ : GrowattModbusBlock) = b from rfl]
      rw [ih fuel' (pre ++ (Chunk.reg b).bytes) t (racc ++ [b]) sacc
        (fun c hc => hwf c (by simp [hc])) ht (by simp at hfuel; omega)]
      simp [regsOf, sersOf, List.filterMap_cons]
    · -- multiple-serial chunk
      have hcw := hwf (Chunk.ser s) (by simp)
      simp only [Chunk.wf, Bool.and_eq_true, decide_eq_true_eq] at hcw
      obtain ⟨⟨hwfs, hdev⟩, hfn⟩ := hcw
      simp only [GrowattModbusFunctionMultipleSerial.wfSpec, Bool.and_eq_true,
        decide_eq_true_eq, List.all_eq_true] at hwfs
      obtain ⟨⟨⟨hse, h65⟩, hvlen⟩, hchars⟩ := hwfs
      have hpw : pyLjust s.value (((s.end_ : Int) - (s.start : Int) + 1) * 2) =
          s.value ++ List.replicate ((s.end_ - s.start + 1) * 2 - s.value.length) 0 := by
        rw [show (((s.end_ : Int) - (s.start : Int) + 1) * 2) =
            (((s.end_ - s.start + 1) * 2 : Nat) : Int) by push_cast; omega]
        exact pyLjust_nat _ _ hvlen
      have hcb : (Chunk.ser s).bytes = packU16 s.start ++ packU16 s.end_ ++
          (s.value ++ List.replicate ((s.end_ - s.start + 1) * 2 - s.value.length) 0) := by
        simp only [Chunk.bytes, hpw]
      have hcblen : (Chunk.ser s).bytes.length = 4 + 2 * (s.end_ - s.start + 1) := by
        rw [chunk_bytes_length_ser s hse hvlen]
        omega
      have hbuf : pre ++ (chunksBytes (Chunk.ser s :: cs) ++ t) =
          pre ++ ((Chunk.ser s).bytes ++ (chunksBytes cs ++ t)) := by
        rw [chunksBytes_cons, List.append_assoc]
      rw [hbuf]
      rw [parseBlocksLoop.eq_def]
      rw [if_pos (by
        simp only [List.length_append, hcblen]
        push_cast
        omega)]
      rcases fuel with _ | fuel'
      · exact absurd hfuel (by simp)
      have hsl1 : pySlice (pre ++ ((Chunk.ser s).bytes ++ (chunksBytes cs ++ t)))
          (pre.length : Int) ((pre.length : Int) + 4) =
          packU16 s.start ++ packU16 s.end_ := by
        rw [show ((pre.length : Int) + 4) = ((pre.length + 4 : Nat) : Int) by
          push_cast; ring]
        rw [pySlice_nonneg, sliceN_append_zero, hcb, List.append_assoc,
          take4_chunk]
      have hsl2 : pySlice (pre ++ ((Chunk.ser s).bytes ++ (chunksBytes cs ++ t)))
          ((pre.length : Int) + 4)
          ((pre.length : Int) + 4 + ((s.end_ : Int) - (s.start : Int) + 1) * 2) =
          s.value ++ List.replicate ((s.end_ - s.start + 1) * 2 - s.value.length) 0 := by
        rw [show ((pre.length : Int) + 4) = ((pre.length + 4 : Nat) : Int) by
          push_cast; ring]
        rw [show (((pre.length + 4 : Nat) : Int) +
            ((s.end_ : Int) - (s.start : Int) + 1) * 2) =
            ((pre.length + (4 + 2 * (s.end_ - s.start + 1)) : Nat) : Int) by
          push_cast; omega]
        rw [pySlice_nonneg]
        rw [sliceN_append pre _ 4 (4 + 2 * (s.end_ - s.start + 1))]
        unfold sliceN
        rw [← hcblen, List.take_append_of_le_length (le_refl _), List.take_length,
          hcb, drop4_chunk]
      have hall : (s.value ++ List.replicate
          ((s.end_ - s.start + 1) * 2 - s.value.length) 0).all printableOrNul = true :=
        printable_pad _ _ hchars
      have hdecode : decodeAsciiStrip (s.value ++ List.replicate
          ((s.end_ - s.start + 1) * 2 - s.value.length) 0) = s.value :=
        decodeAsciiStrip_pad _ _ (fun c hc => ⟨by have := (hchars c hc).1; omega,
          by have := (hchars c hc).2; omega⟩)
      simp only [hsl1, unpackHH_pack, hsl2, hall, if_true, hdecode]
      have hoff : (pre.length : Int) + 4 +
          ((s.end_ : Int) - (s.start : Int) + 1) * 2 =
          (((pre ++ (Chunk.ser s).bytes).length : Nat) : Int) := by
        simp only [List.length_append, hcblen]
        push_cast
        omega
      rw [hoff]
      rw [show pre ++ ((Chunk.ser s).bytes ++ (chunksBytes cs ++ t)) =
          (pre ++ (Chunk.ser s).bytes) ++ (chunksBytes cs ++ t) by
        rw [List.append_assoc]]
      rw [show (⟨dev, fn, s.start, s.end_, s.value⟩ :
          GrowattModbusFunctionMultipleSerial) = s by rw [← hdev, ← hfn]]
      rw [ih fuel' (pre ++ (Chunk.ser s).bytes) t racc (sacc ++ [s])
        (fun c hc => hwf c (by simp [hc])) ht (by simp at hfuel; omega)]
      simp [regsOf, sersOf, List.filterMap_cons]

theorem wireBytes_length (md : GrowattMetadata) (h : md.wfSpec = true) :
    md.wireBytes.length = 37 := by
  rcases md with ⟨sn, _ | ts⟩
  · simp [GrowattMetadata.wfSpec] at h
  · simp only [GrowattMetadata.wfSpec, Bool.and_eq_true, decide_eq_true_eq] at h
    obtain ⟨⟨_, hsnlen⟩, _⟩ := h
    simp only [GrowattMetadata.wireBytes, List.length_append,
      pack30s_length sn hsnlen]
    rfl

theorem headerBytes_explicit (u L : Nat) (fn : GrowattModbusFunction) (dev : Bytes) :
    headerBytes u L fn dev =
      [u / 256, u % 256, 0, 7, L / 256, L % 256, 1, fn.value] ++ pack30s dev := by
  simp [headerBytes, packU16]

theorem headerBytes_length (u L : Nat) (fn : GrowattModbusFunction) (dev : Bytes)
    (h : dev.length ≤ 30) :
    (headerBytes u L fn dev).length = 38 := by
  rw [headerBytes_explicit]
  simp [pack30s_length dev h]

theorem unpackHeader_headerBytes (u L : Nat) (fn : GrowattModbusFunction)
    (dev : Bytes) (h : dev.length ≤ 30) :
    unpackHeader (headerBytes u L fn dev) =
      some (u, 7, L, 1, fn.value, pack30s dev) := by
  unfold unpackHeader
  rw [if_pos (headerBytes_length u L fn dev h)]
  rw [headerBytes_explicit]
  simp only [List.cons_append, List.nil_append, List.getD_cons_zero,
    List.getD_cons_succ, List.drop_succ_cons, List.drop_zero]
  have e1 : u / 256 * 256 + u % 256 = u := by omega
  have e2 : L / 256 * 256 + L % 256 = L := by omega
  simp only [e1, e2]

theorem chunks_wf (m : GrowattModbusMessage) (h : m.buildParseSafe = true) :
    ∀ c ∈ m.chunks, Chunk.wf m.device_id m.function c = true := by
  simp only [GrowattModbusMessage.buildParseSafe, Bool.and_eq_true] at h
  obtain ⟨hwf, hnp⟩ := h
  simp only [GrowattModbusMessage.wellFormed, Bool.and_eq_true,
    List.all_eq_true] at hwf
  obtain ⟨⟨⟨⟨⟨⟨_, _⟩, _⟩, _⟩, hblocks⟩, hserials⟩, _⟩ := hwf
  rw [List.all_eq_true] at hnp
  intro c hc
  simp only [GrowattModbusMessage.chunks, List.mem_append, List.mem_map] at hc
  rcases hc with ⟨b, hb, rfl⟩ | ⟨s, hs, rfl⟩
  · simp only [Chunk.wf, Bool.and_eq_true]
    refine ⟨hblocks b hb, ?_⟩
    have := hnp b hb
    simpa using this
  · simp only [Chunk.wf, Bool.and_eq_true]
    exact hserials s hs

theorem regsOf_chunks (m : GrowattModbusMessage) :
    regsOf m.chunks = m.register_blocks := by
  simp only [GrowattModbusMessage.chunks, regsOf, List.filterMap_append,
    List.filterMap_map]
  have h1 : m.register_blocks.filterMap
      (fun b => (fun c => match c with
        | Chunk.reg b => some b | Chunk.ser _ => none) (Chunk.reg b)) =
      m.register_blocks := by
    simp
  have h2 : m.multiple_serial_blocks.filterMap
      (fun s => (fun c => match c with
        | Chunk.reg b => some b | Chunk.ser _ => none) (Chunk.ser s)) =
      ([] : List GrowattModbusBlock) := by
    simp
  rw [show (fun b => (fun c => match c with
      | Chunk.reg b => some b | Chunk.ser _ => none) (Chunk.reg b)) =
      (fun b : GrowattModbusBlock => some b) from rfl] at h1
  simp only [Function.comp_def]
  rw [h1, h2, List.append_nil]

theorem sersOf_chunks (m : GrowattModbusMessage) :
    sersOf m.chunks = m.multiple_serial_blocks := by
  simp only [GrowattModbusMessage.chunks, sersOf, List.filterMap_append,
    List.filterMap_map]
  have h1 : m.register_blocks.filterMap
      (fun b => (fun c => match c with
        | Chunk.ser s => some s | Chunk.reg _ => none) (Chunk.reg b)) =
      ([] : List GrowattModbusFunctionMultipleSerial) := by
    simp
  have h2 : m.multiple_serial_blocks.filterMap
      (fun s => (fun c => match c with
        | Chunk.ser s => some s | Chunk.reg _ => none) (Chunk.ser s)) =
      m.multiple_serial_blocks := by
    simp
  simp only [Function.comp_def]
  rw [h1, h2, List.nil_append]

theorem pySlice_to_end (l : Bytes) (a : Nat) :
    pySlice l (a : Int) (l.length : Int) = l.drop a := by
  rw [pySlice_nonneg]
  unfold sliceN
  rw [List.take_length]

theorem parse_core (m : GrowattModbusMessage) (hm : m.buildParseSafe = true)
    (L : Nat) (t : Bytes) (ht : t.length ≤ 4) (fuel : Nat)
    (hfuel : m.register_blocks.length + m.multiple_serial_blocks.length ≤ fuel) :
    GrowattModbusMessage.parse_grobroF fuel
      (headerBytes m.unknown L m.function m.device_id ++ (m.bodyBytes ++ t)) =
      some (some m) := by
  have hwfb : m.wellFormed = true := by
    simp only [GrowattModbusMessage.buildParseSafe, Bool.and_eq_true] at hm
    exact hm.1
  have hwf' := hwfb
  simp only [GrowattModbusMessage.wellFormed, Bool.and_eq_true, List.all_eq_true,
    decide_eq_true_eq] at hwf'
  obtain ⟨⟨⟨⟨⟨⟨hunk, hdev⟩, hdevlen⟩, hmd⟩, hblocks⟩, hserials⟩, hmax⟩ := hwf'
  have hblen : (headerBytes m.unknown L m.function m.device_id).length = 38 :=
    headerBytes_length _ _ _ _ hdevlen
  have hsl0 : pySlice (headerBytes m.unknown L m.function m.device_id ++
      (m.bodyBytes ++ t)) 0 38 = headerBytes m.unknown L m.function m.device_id := by
    rw [show (0 : Int) = ((0 : Nat) : Int) from rfl,
      show (38 : Int) = ((38 : Nat) : Int) from rfl, pySlice_nonneg, sliceN_zero,
      ← hblen, List.take_left]
  have hdevd : decodeAsciiStrip (pack30s m.device_id) = m.device_id := by
    rw [pack30s_eq _ hdevlen]
    exact decodeAsciiStrip_pad _ _ hdev
  have hchlen : m.chunks.length ≤ fuel := by
    simp only [GrowattModbusMessage.chunks, List.length_append, List.length_map]
    omega
  unfold GrowattModbusMessage.parse_grobroF
  rw [hsl0, unpackHeader_headerBytes _ _ _ _ hdevlen]
  rcases hmdm : m.metadata with _ | md
  · have hfn : ¬(m.function = .READ_INPUT_REGISTER) := by
      rw [hmdm] at hmd
      simpa using hmd
    have hbody : m.bodyBytes = chunksBytes m.chunks := by
      simp [GrowattModbusMessage.bodyBytes, hmdm]
    simp only [ofValue_value, hdevd, if_neg hfn]
    rw [show (38 : Int) =
        (((headerBytes m.unknown L m.function m.device_id).length : Nat) : Int) by
      rw [hblen]; norm_cast]
    rw [hbody]
    rw [parseBlocksLoop_run m.device_id m.function m.chunks fuel _ t _ _
      (chunks_wf m hm) ht hchlen]
    simp only [regsOf_chunks, sersOf_chunks, List.nil_append, Option.map_some']
    rw [show (⟨m.unknown, m.device_id, none, m.function, m.register_blocks,
        m.multiple_serial_blocks⟩ : GrowattModbusMessage) = m by rw [← hmdm]]
  · have hfn : m.function = .READ_INPUT_REGISTER ∧ md.wfSpec = true := by
      rw [hmdm] at hmd
      simpa using hmd
    have hbody : m.bodyBytes = md.wireBytes ++ chunksBytes m.chunks := by
      simp [GrowattModbusMessage.bodyBytes, hmdm, metadata_build_wire md hfn.2]
    simp only [ofValue_value, hdevd, if_pos hfn.1]
    have hslmd : pySlice (headerBytes m.unknown L m.function m.device_id ++
        (m.bodyBytes ++ t)) 38
        (((headerBytes m.unknown L m.function m.device_id ++
          (m.bodyBytes ++ t)).length : Nat) : Int) =
        md.wireBytes ++ (chunksBytes m.chunks ++ t) := by
      rw [show (38 : Int) = ((38 : Nat) : Int) from rfl, pySlice_to_end,
        ← hblen, List.drop_left, hbody, List.append_assoc]
    rw [hslmd, metadata_parse_wire md hfn.2 _]
    rw [show (75 : Int) =
        (((headerBytes m.unknown L m.function m.device_id ++
          md.wireBytes).length : Nat) : Int) by
      rw [List.length_append, hblen, wireBytes_length md hfn.2]; norm_cast]
    rw [show headerBytes m.unknown L m.function m.device_id ++ (m.bodyBytes ++ t) =
        (headerBytes m.unknown L m.function m.device_id ++ md.wireBytes) ++
        (chunksBytes m.chunks ++ t) by
      rw [hbody]; simp [List.append_assoc]]
    rw [parseBlocksLoop_run m.device_id m.function m.chunks fuel _ t _ _
      (chunks_wf m hm) ht hchlen]
    simp only [regsOf_chunks, sersOf_chunks, List.nil_append, Option.map_some']
    rw [show (⟨m.unknown, m.device_id, some md, m.function, m.register_blocks,
        m.multiple_serial_blocks⟩ : GrowattModbusMessage) = m by rw [← hmdm]]

theorem chunksBytes_reg_length (bs : List GrowattModbusBlock) :
    ((chunksBytes (bs.map Chunk.reg)).length : Int) =
      (bs.map GrowattModbusBlock.size).sum := by
  induction bs with
  | nil => simp [chunksBytes]
  | cons b bs ih =>
    rw [List.map_cons, chunksBytes_cons, List.length_append, List.map_cons,
      List.sum_cons, chunk_bytes_length_reg]
    simp only [GrowattModbusBlock.size]
    push_cast
    omega

theorem chunksBytes_ser_length (ss : List GrowattModbusFunctionMultipleSerial)
    (h : ∀ s ∈ ss, s.wfSpec = true) :
    ((chunksBytes (ss.map Chunk.ser)).length : Int) =
      (ss.map GrowattModbusFunctionMultipleSerial.size).sum := by
  induction ss with
  | nil => simp [chunksBytes]
  | cons s ss ih =>
    have hs := h s (by simp)
    simp only [GrowattModbusFunctionMultipleSerial.wfSpec, Bool.and_eq_true,
      decide_eq_true_eq, List.all_eq_true] at hs
    obtain ⟨⟨⟨hse, _⟩, hvlen⟩, _⟩ := hs
    rw [List.map_cons, chunksBytes_cons, List.length_append, List.map_cons,
      List.sum_cons, chunk_bytes_length_ser s hse hvlen]
    have hih := ih (fun x hx => h x (by simp [hx]))
    simp only [GrowattModbusFunctionMultipleSerial.size]
    push_cast
    omega

theorem bodyBytes_length (m : GrowattModbusMessage) (h : m.wellFormed = true) :
    (m.bodyBytes.length : Int) = m.msg_len - 32 := by
  have hwf' := h
  simp only [GrowattModbusMessage.wellFormed, Bool.and_eq_true, List.all_eq_true,
    decide_eq_true_eq] at hwf'
  obtain ⟨⟨⟨⟨⟨⟨_, _⟩, _⟩, hmd⟩, _⟩, hserials⟩, _⟩ := hwf'
  have hser_wf : ∀ s ∈ m.multiple_serial_blocks, s.wfSpec = true :=
    fun s hs => ((hserials s hs).1).1
  have h1 := chunksBytes_reg_length m.register_blocks
  have h2 := chunksBytes_ser_length m.multiple_serial_blocks hser_wf
  rcases hmdm : m.metadata with _ | md
  · simp only [GrowattModbusMessage.bodyBytes, GrowattModbusMessage.msg_len, hmdm,
      List.nil_append, GrowattModbusMessage.chunks, chunksBytes_append,
      List.length_append]
    push_cast
    omega
  · rw [hmdm] at hmd
    simp only [decide_eq_true_eq, Bool.and_eq_true] at hmd
    have hwire := wireBytes_length md hmd.2
    simp only [GrowattModbusMessage.bodyBytes, GrowattModbusMessage.msg_len, hmdm,
      metadata_build_wire md hmd.2, Option.getD_some,
      GrowattModbusMessage.chunks, chunksBytes_append, List.length_append, hwire]
    push_cast
    omega

/-- C1 (amended): the round trip `parse(build(m)) = m` holds for every
well-formed message whose register blocks each contain at least one byte
that is neither printable ASCII nor NUL (otherwise the block is re-read
as a multiple-serial block, see the counterexample).  The parsed message
is equal on the nose: the length field is recomputed by `build_grobro`
and not stored by the parser. -/
theorem C1_roundtrip (m : GrowattModbusMessage) (h : m.buildParseSafe = true)
    (fuel : Nat)
    (hfuel : m.register_blocks.length + m.multiple_serial_blocks.length ≤ fuel) :
    ∃ bs, m.build_grobro = some bs ∧
      GrowattModbusMessage.parse_grobroF fuel bs = some (some m) := by
  have hwf : m.wellFormed = true := by
    simp only [GrowattModbusMessage.buildParseSafe, Bool.and_eq_true] at h
    exact h.1
  refine ⟨_, build_grobro_eq m hwf, ?_⟩
  have hp := parse_core m h m.msg_len.toNat [] (by simp) fuel hfuel
  simpa using hp

/-- C1 counterexample: `exPrintableMsg` is a well-formed message (its
single register block stores exactly `(end - start + 1) * 2` bytes), yet
parsing its serialization yields a different message: the all-printable
block comes back as a multiple-serial block. -/
theorem C1_roundtrip_cex :
    exPrintableMsg.wellFormed = true ∧
    (GrowattModbusMessage.build_grobro exPrintableMsg).bind
        (fun bs => GrowattModbusMessage.parse_grobroF bs.length bs) =
      some (some exPrintableParsed) ∧
    exPrintableParsed ≠ exPrintableMsg := by
  exact ⟨by decide, by decide, by decide⟩

/-- Witness for C1: a message whose block holds the non-printable byte
200 does round trip. -/
theorem C1_roundtrip_witness :
    exSafeMsg.buildParseSafe = true ∧
    (∃ bs, GrowattModbusMessage.build_grobro exSafeMsg = some bs ∧
      GrowattModbusMessage.parse_grobroF 2 bs = some (some exSafeMsg)) :=
  ⟨by decide, C1_roundtrip exSafeMsg (by decide) 2 (by decide)⟩

/-- C2 (amended): `parse_grobro` reads the declared length field but
never verifies it: a round-trip-safe message serialized with ANY value
in the 16-bit length field — matching the content or not — still parses
to the same message; no structural error occurs. -/
theorem C2_length_ignored (m : GrowattModbusMessage) (h : m.buildParseSafe = true)
    (L : Nat) (fuel : Nat)
    (hfuel : m.register_blocks.length + m.multiple_serial_blocks.length ≤ fuel) :
    GrowattModbusMessage.parse_grobroF fuel
      (headerBytes m.unknown L m.function m.device_id ++ m.bodyBytes) =
      some (some m) := by
  have hp := parse_core m h L [] (by simp) fuel hfuel
  simpa using hp

/-- C2 counterexample: a buffer whose declared length field is 999 while
only 30 bytes follow the first 8 header bytes parses without any error
into a full message — `parse_grobro` performs no length check. -/
theorem C2_no_length_check_cex :
    unpackHeader mismatchedLenBuffer =
      some (0, 7, 999, 1, 3, pack30s (strBytes "X")) ∧
    mismatchedLenBuffer.length - 8 ≠ 999 ∧
    GrowattModbusMessage.parse_grobroF mismatchedLenBuffer.length
      mismatchedLenBuffer = some (some mismatchedLenParsed) := by
  exact ⟨by decide, by decide, by decide⟩

/-- Witness for C2: the safe example message parses back even with the
mismatched length value 999 in its header. -/
theorem C2_length_ignored_witness :
    exSafeMsg.buildParseSafe = true ∧
    GrowattModbusMessage.parse_grobroF 3
      (headerBytes exSafeMsg.unknown 999 exSafeMsg.function exSafeMsg.device_id ++
        exSafeMsg.bodyBytes) = some (some exSafeMsg) :=
  ⟨by decide, C2_length_ignored exSafeMsg (by decide) 999 3 (by decide)⟩

/-- C3 (amended): the length field written by `build_grobro` equals the
byte count of everything following the first SIX header bytes of the
serialized output (equivalently, the total length minus 6): it counts
the device-address byte, the function byte, the 30-byte device id and
the content — 32 plus metadata/block sizes, not the 30 plus sizes after
the first 8 bytes that the claim states. -/
theorem C3_msg_len (m : GrowattModbusMessage) (h : m.wellFormed = true) :
    ∃ bs, m.build_grobro = some bs ∧
      (bs.length : Int) = m.msg_len + 6 := by
  refine ⟨_, build_grobro_eq m h, ?_⟩
  have hdevlen : m.device_id.length ≤ 30 := by
    simp only [GrowattModbusMessage.wellFormed, Bool.and_eq_true,
      decide_eq_true_eq] at h
    exact h.1.1.1.1.2
  rw [List.length_append, headerBytes_length _ _ _ _ hdevlen]
  have hb := bodyBytes_length m h
  push_cast
  omega

/-- C3 counterexample: a header-only message has `msg_len = 32`, but only
30 bytes follow the first 8 header bytes of its 38-byte serialization. -/
theorem C3_msg_len_cex :
    GrowattModbusMessage.msg_len exHeaderOnlyMsg = 32 ∧
    (GrowattModbusMessage.build_grobro exHeaderOnlyMsg).map List.length =
      some 38 ∧
    GrowattModbusMessage.msg_len exHeaderOnlyMsg ≠ (38 : Int) - 8 := by
  exact ⟨by decide, by decide, by decide⟩

/-- Witness for C3: the header-only message is well-formed and its
serialized length is `msg_len + 6`. -/
theorem C3_msg_len_witness :
    exHeaderOnlyMsg.wellFormed = true ∧
    (∃ bs, GrowattModbusMessage.build_grobro exHeaderOnlyMsg = some bs ∧
      (bs.length : Int) = GrowattModbusMessage.msg_len exHeaderOnlyMsg + 6) :=
  ⟨by decide, C3_msg_len exHeaderOnlyMsg (by decide)⟩

/-- C5 (amended): the block loop consumes chunks only while MORE than 4
bytes remain (`len(buffer) > offset + 4`), so up to 4 trailing bytes —
not strictly fewer than 4 — are left unconsumed, and such trailing bytes
never cause a failure: a round-trip-safe message still parses to itself
with up to 4 arbitrary bytes appended. -/
theorem C5_trailing_ignored (m : GrowattModbusMessage) (h : m.buildParseSafe = true)
    (t : Bytes) (ht : t.length ≤ 4) (fuel : Nat)
    (hfuel : m.register_blocks.length + m.multiple_serial_blocks.length ≤ fuel) :
    ∃ bs, m.build_grobro = some bs ∧
      GrowattModbusMessage.parse_grobroF fuel (bs ++ t) = some (some m) := by
  have hwf : m.wellFormed = true := by
    simp only [GrowattModbusMessage.buildParseSafe, Bool.and_eq_true] at h
    exact h.1
  refine ⟨_, build_grobro_eq m hwf, ?_⟩
  have hp := parse_core m h m.msg_len.toNat t ht fuel hfuel
  rw [List.append_assoc]
  exact hp

/-- C5 counterexample: with exactly 4 bytes left after the 38-byte
header — "at least 4 bytes remain" in the claim's words — the loop does
NOT consume a block: the parsed message has no blocks at all. -/
theorem C5_four_trailing_cex :
    fourTrailingBuffer.length = 38 + 4 ∧
    GrowattModbusMessage.parse_grobroF fourTrailingBuffer.length
      fourTrailingBuffer = some (some fourTrailingParsed) ∧
    fourTrailingParsed.register_blocks = [] ∧
    fourTrailingParsed.multiple_serial_blocks = [] := by
  exact ⟨by decide, by decide, by decide, by decide⟩

/-- Witness for C5: a full ReadInput message (metadata, one register
block, one serial block) parses back to itself with 3 garbage bytes
appended. -/
theorem C5_trailing_ignored_witness :
    exInputMsg.buildParseSafe = true ∧
    ([250, 251, 252] : Bytes).length ≤ 4 ∧
    (∃ bs, GrowattModbusMessage.build_grobro exInputMsg = some bs ∧
      GrowattModbusMessage.parse_grobroF 9 (bs ++ [250, 251, 252]) =
        some (some exInputMsg)) :=
  ⟨by decide, by decide,
   C5_trailing_ignored exInputMsg (by decide) [250, 251, 252] (by decide) 9
     (by decide)⟩

/- ----------------------------------------------------------------- -/
/- Claim C10: totality / divergence of parse_grobro                   -/
/- ----------------------------------------------------------------- -/

theorem parseBlocksLoop_stuck (b dev : Bytes) (fn : GrowattModbusFunction)
    (offset : Int) (racc : List GrowattModbusBlock) (start end_ : Nat)
    (hcond : (b.length : Int) > offset + 4)
    (hun : unpackHH (pySlice b offset (offset + 4)) = some (start, end_))
    (hnum : ((end_ : Int) - (start : Int) + 1) * 2 = -4)
    (hprint : (pySlice b (offset + 4)
      (offset + 4 + ((end_ : Int) - (start : Int) + 1) * 2)).all printableOrNul =
      true) :
    ∀ fuel sacc, parseBlocksLoop fuel b dev fn offset racc sacc = none := by
  intro fuel
  induction fuel with
  | zero =>
    intro sacc
    rw [parseBlocksLoop.eq_def, if_pos hcond]
  | succ fuel' ih =>
    intro sacc
    rw [parseBlocksLoop.eq_def, if_pos hcond]
    simp only [hun, hprint, if_true]
    rw [show offset + 4 + ((end_ : Int) - (start : Int) + 1) * 2 = offset by
      rw [hnum]; ring]
    exact ih _

theorem pySlice_four (b : Bytes) (i : Nat) (h : i + 4 ≤ b.length) :
    pySlice b (i : Int) ((i : Int) + 4) =
      [b.getD i 0, b.getD (i+1) 0, b.getD (i+2) 0, b.getD (i+3) 0] := by
  rw [show ((i : Int) + 4) = ((i + 4 : Nat) : Int) by push_cast; ring,
    pySlice_nonneg]
  unfold sliceN
  rw [List.drop_take]
  have hdrop : ∀ j : Nat, j + 1 ≤ b.length → b.drop j =
      b.getD j 0 :: b.drop (j + 1) := by
    intro j hj
    rw [List.drop_eq_getElem_cons (by omega), List.getD_eq_getElem b 0 (by omega)]
  rw [show i + 4 - i = 4 from by omega]
  rw [hdrop i (by omega), List.take_succ_cons,
    hdrop (i+1) (by omega), List.take_succ_cons,
    hdrop (i+2) (by omega), List.take_succ_cons,
    hdrop (i+3) (by omega), List.take_succ_cons, List.take_zero]

theorem parseBlocksLoop_total (b dev : Bytes) (fn : GrowattModbusFunction)
    (hgood : goodBlockWindows b = true) :
    ∀ (fuel : Nat) (offset : Int) (racc : List GrowattModbusBlock)
      (sacc : List GrowattModbusFunctionMultipleSerial), 0 ≤ offset →
      (b.length : Int) ≤ offset + 2 * fuel + 4 →
      (parseBlocksLoop fuel b dev fn offset racc sacc).isSome = true := by
  intro fuel
  induction fuel with
  | zero =>
    intro offset racc sacc hoff hlen
    rw [parseBlocksLoop.eq_def, if_neg (by omega)]
    rfl
  | succ fuel' ih =>
    intro offset racc sacc hoff hlen
    rw [parseBlocksLoop.eq_def]
    by_cases hc : (b.length : Int) > offset + 4
    · rw [if_pos hc]
      have hoi : ((offset.toNat : Nat) : Int) = offset := Int.toNat_of_nonneg hoff
      have hi4 : offset.toNat + 4 ≤ b.length := by omega
      have hslice := pySlice_four b offset.toNat hi4
      rw [← hoi]
      rw [hslice]
      simp only [unpackHH]
      have hwin : b.getD offset.toNat 0 * 256 + b.getD (offset.toNat + 1) 0 ≤
          b.getD (offset.toNat + 2) 0 * 256 + b.getD (offset.toNat + 3) 0 + 2 := by
        rw [goodBlockWindows, List.all_eq_true] at hgood
        have := hgood offset.toNat (List.mem_range.mpr (by omega))
        rcases Bool.or_eq_true _ _ |>.mp this with h1 | h2
        · simp only [decide_eq_true_eq] at h1
          omega
        · simpa using h2
      split
      · apply ih
        · push_cast
          omega
        · push_cast
          omega
      · apply ih
        · push_cast
          omega
        · push_cast
          omega
    · rw [if_neg hc]
      rfl

/-- C10 (amended): `parse_grobro` never raises — all failures become the
`None` result — and it terminates (with fuel equal to the buffer length)
on every buffer in which each potential 4-byte block header advances the
loop offset, i.e. `start <= end + 2` for every aligned window.  On
adversarial buffers violating this, the loop can run forever (see the
counterexample). -/
theorem C10_total_on_good (b : Bytes) (h : goodBlockWindows b = true) :
    (GrowattModbusMessage.parse_grobroF b.length b).isSome = true := by
  unfold GrowattModbusMessage.parse_grobroF
  split
  · rfl
  · split
    · rfl
    · split
      · split
        · rfl
        · rw [Option.isSome_map']
          exact parseBlocksLoop_total b _ _ h b.length 75 [] [] (by omega)
            (by omega)
      · rw [Option.isSome_map']
        exact parseBlocksLoop_total b _ _ h b.length 38 [] [] (by omega)
          (by omega)

/-- Witness for C10 (amended): a garbage buffer too short to hold any
window trivially satisfies the window condition and parses totally (to
`None`, without raising). -/
theorem C10_total_on_good_witness :
    goodBlockWindows [1, 2, 3] = true ∧
    (GrowattModbusMessage.parse_grobroF (List.length [1, 2, 3])
      [1, 2, 3]).isSome = true :=
  ⟨by decide, C10_total_on_good [1, 2, 3] (by decide)⟩

/-- C10 counterexample: on `divergingBuffer` the parse loop repeats the
same offset forever (`num_regs = -2` gives a zero advance), so no amount
of fuel makes `parse_grobro` return: the Python implementation does not
terminate on this input, refuting the claim that it is total. -/
theorem C10_diverges_cex :
    ¬ ∃ fuel res, GrowattModbusMessage.parse_grobroF fuel divergingBuffer =
      some res := by
  rintro ⟨fuel, res, h⟩
  have hstuck := parseBlocksLoop_stuck divergingBuffer (strBytes "X")
    GrowattModbusFunction.READ_HOLDING_REGISTER 38 [] 3 0 (by decide) (by decide)
    (by decide) (by decide)
  have hred : GrowattModbusMessage.parse_grobroF fuel divergingBuffer =
      (parseBlocksLoop fuel divergingBuffer (strBytes "X")
        GrowattModbusFunction.READ_HOLDING_REGISTER 38 [] []).map
        (Option.map (fun p => ⟨0, strBytes "X", none,
          GrowattModbusFunction.READ_HOLDING_REGISTER, p.1, p.2⟩)) := rfl
  rw [hred, hstuck fuel []] at h
  simp at h
